import Mathlib

/-!
# MPC: problem formulation of the model-predictive controller (`src/MPC.cpp`)

A shallow embedding of `FG_eval::operator()` and `MPC::Solve`.

Modelling conventions.

* `double` and `AD<double>` are one scalar type `α` carrying the arithmetic
  operations the source uses.  The theorems are stated over an arbitrary
  (ordered) field, that is, rounding is idealised away; the definitions are
  also instantiated at `Dbl`, rationals extended by a NaN value, where the
  behaviour on non-finite input is the question.
* `sin`, `cos`, `atan` (from `<cmath>` and CppAD) are a parameter `m : Cmath α`.
* `size_t` arithmetic wraps modulo `2 ^ 64` (`sadd`, `ssub`, `smul`).  The
  `int` loop counters are naturals (they do not overflow for horizons whose
  vectors fit in memory).
* A vector the caller supplies and the code only reads (`state`, `coeffs`,
  `vars`, `solution.x`) is its index-to-value map `Nat → α`.  A vector the code
  allocates and writes is a list; the `Dvector`s of `Solve`, allocated without
  initialisation, hold `none` until written.
* The external solver `CppAD::ipopt::solve` is a parameter
  `solver : Problem α → solve_result α`; where a statement rests on what the solver
  guarantees, that guarantee is a hypothesis on `solver`.
-/

set_option linter.unusedSectionVars false

namespace MPC

/-! ## `size_t` arithmetic -/

/-- The modulus of `size_t` arithmetic, `2 ^ 64`. -/
def SIZE_MOD : Nat := 18446744073709551616

/-- Addition of `size_t` values. -/
def sadd (a b : Nat) : Nat := (a + b) % SIZE_MOD

/-- Subtraction of `size_t` values; wraps around below zero. -/
def ssub (a b : Nat) : Nat := (a % SIZE_MOD + SIZE_MOD - b % SIZE_MOD) % SIZE_MOD

/-- Multiplication of `size_t` values. -/
def smul (a b : Nat) : Nat := (a * b) % SIZE_MOD

/-! ## Start offsets (lines 29-37), as functions of the horizon `N` -/

def x_start : Nat := 0
def y_start (N : Nat) : Nat := sadd x_start N
def psi_start (N : Nat) : Nat := sadd (y_start N) N
def v_start (N : Nat) : Nat := sadd (psi_start N) N
def cte_start (N : Nat) : Nat := sadd (v_start N) N
def epsi_start (N : Nat) : Nat := sadd (cte_start N) N
def delta_start (N : Nat) : Nat := sadd (epsi_start N) N
def a_start (N : Nat) : Nat := ssub (sadd (delta_start N) N) 1

/-- The variable count computed in `Solve`, line 152: `6 * N + 2 * (N - 1)`. -/
def n_vars (N : Nat) : Nat := sadd (smul 6 N) (smul 2 (ssub N 1))

/-- The constraint count computed in `Solve`, line 154: `6 * N`. -/
def n_constraints (N : Nat) : Nat := smul 6 N

/-! ## Scalars, loops and vectors -/

/-- The transcendental functions the program calls. -/
structure Cmath (α : Type) where
  sin : α → α
  cos : α → α
  atan : α → α

/-- The loop `for (int i = lo; i < hi; i++) s = body i s`. -/
def forLoop {σ : Type} (lo hi : Nat) (body : Nat → σ → σ) (s : σ) : σ :=
  (List.range' lo (hi - lo)).foldl (fun s i => body i s) s

/-- A `Dvector`: `none` marks an element that was allocated but never written. -/
abbrev Dvector (α : Type) := List (Option α)

/-- The declaration `Dvector v(n)`.  The allocation is taken to succeed; the failure of an
allocation that is too large (at `N = 0`, where `n_vars` wraps to `2 ^ 64 - 2`) is not
modelled, and no statement below is about what `Solve` does there. -/
def Dvector.alloc {α : Type} (n : Nat) : Dvector α := List.replicate n none

/-- The assignment `v[i] = a`. -/
def Dvector.write {α : Type} (v : Dvector α) (i : Nat) (a : α) : Dvector α :=
  v.set i (some a)

/-- The field `status` of `CppAD::ipopt::solve_result`. -/
inductive status_type where
  | not_defined
  | success
  | maxiter_exceeded
  | stop_at_tiny_step
  | stop_at_acceptable_point
  | local_infeasibility
  | user_requested_stop
  | feasible_point_found
  | diverging_iterates
  | restoration_failure
  | error_in_step_computation
  | invalid_number_detected
  | too_few_degrees_of_freedom
  | internal_error
  | unknown
  deriving DecidableEq, Repr

/-- The fields of `CppAD::ipopt::solve_result` that `Solve` reads. -/
structure solve_result (α : Type) where
  status : status_type
  x : Nat → α
  obj_value : α

/-- The six state fields. -/
structure State (α : Type) where
  x : α
  y : α
  psi : α
  v : α
  cte : α
  epsi : α

/-- A state as the six-entry vector `Solve` takes. -/
def State.vec {α : Type} (s : State α) : Nat → α := fun i =>
  match i with
  | 0 => s.x
  | 1 => s.y
  | 2 => s.psi
  | 3 => s.v
  | 4 => s.cte
  | _ => s.epsi

/-- The object `FG_eval`: it stores the fitted polynomial coefficients. -/
structure FG_eval (α : Type) where
  coeffs : Nat → α

/-- The arguments of one call of `CppAD::ipopt::solve` (lines 243-245). -/
structure Problem (α : Type) where
  options : String
  xi : Dvector α
  xl : Dvector α
  xu : Dvector α
  gl : Dvector α
  gu : Dvector α
  fg_eval : FG_eval α

/-- What one run of `Solve` does: the solver calls it made, the flag `ok`, the
cost it printed and the vector it returned. -/
structure SolveRun (α : Type) where
  calls : List (Problem α)
  ok : Bool
  cost : α
  result : List α

section Program

variable {α : Type} [Add α] [Sub α] [Mul α] [Div α] [Neg α] [NatCast α] [OfScientific α]
  [Pow α Nat]

/-- Line 10. -/
def dt : α := 0.1

/-- Line 22. -/
def Lf : α := 2.67

/-- Lines 25-27. -/
def ref_cte : α := ((0 : Nat) : α)
def ref_epsi : α := ((0 : Nat) : α)
def ref_v : α := ((100 : Nat) : α)

/-- The compound assignment `fg[i] += e`. -/
def addAt (fg : List α) (i : Nat) (e : α) : List α :=
  match fg[i]? with
  | some a => fg.set i (a + e)
  | none => fg

/-- Lines 51-59: reset the cost and add the tracking terms. -/
def costTracking (N : Nat) (fg : List α) (vars : Nat → α) : List α :=
  let fg := fg.set 0 ((0 : Nat) : α)
  forLoop 0 N (fun i fg =>
    let fg := addAt fg 0 (((2000 : Nat) : α) * (vars (sadd (cte_start N) i) - ref_cte) ^ 2)
    let fg := addAt fg 0 (((2000 : Nat) : α) * (vars (sadd (epsi_start N) i) - ref_epsi) ^ 2)
    addAt fg 0 ((vars (sadd (v_start N) i) - ref_v) ^ 2)) fg

/-- Lines 61-65: the actuation-magnitude terms. -/
def costActuation (N : Nat) (fg : List α) (vars : Nat → α) : List α :=
  forLoop 0 (ssub N 1) (fun i fg =>
    let fg := addAt fg 0 (((5 : Nat) : α) * (vars (sadd (delta_start N) i)) ^ 2)
    addAt fg 0 (((5 : Nat) : α) * (vars (sadd (a_start N) i)) ^ 2)) fg

/-- Lines 67-71: the actuation-smoothness terms. -/
def costSmoothness (N : Nat) (fg : List α) (vars : Nat → α) : List α :=
  forLoop 0 (ssub N 2) (fun i fg =>
    let fg := addAt fg 0 (((200 : Nat) : α) *
      (vars (sadd (sadd (delta_start N) i) 1) - vars (sadd (delta_start N) i)) ^ 2)
    addAt fg 0 (((10 : Nat) : α) *
      (vars (sadd (sadd (a_start N) i) 1) - vars (sadd (a_start N) i)) ^ 2)) fg

/-- Lines 73-79: the constraints of step 0. -/
def initialConstraints (N : Nat) (fg : List α) (vars : Nat → α) : List α :=
  let fg := fg.set (sadd 1 x_start) (vars x_start)
  let fg := fg.set (sadd 1 (y_start N)) (vars (y_start N))
  let fg := fg.set (sadd 1 (psi_start N)) (vars (psi_start N))
  let fg := fg.set (sadd 1 (v_start N)) (vars (v_start N))
  let fg := fg.set (sadd 1 (cte_start N)) (vars (cte_start N))
  fg.set (sadd 1 (epsi_start N)) (vars (epsi_start N))

/-- Lines 83-110: the body of the loop over the remaining constraints. -/
def residualStep (m : Cmath α) (N : Nat) (coeffs vars : Nat → α) (i : Nat) (fg : List α) :
    List α :=
  let x1 := vars (sadd (sadd x_start i) 1)
  let y1 := vars (sadd (sadd (y_start N) i) 1)
  let psi1 := vars (sadd (sadd (psi_start N) i) 1)
  let v1 := vars (sadd (sadd (v_start N) i) 1)
  let cte1 := vars (sadd (sadd (cte_start N) i) 1)
  let epsi1 := vars (sadd (sadd (epsi_start N) i) 1)
  let x0 := vars (sadd x_start i)
  let y0 := vars (sadd (y_start N) i)
  let psi0 := vars (sadd (psi_start N) i)
  let v0 := vars (sadd (v_start N) i)
  let epsi0 := vars (sadd (epsi_start N) i)
  let delta0 := vars (sadd (delta_start N) i)
  let a0 := vars (sadd (a_start N) i)
  let f0 := coeffs 0 + coeffs 1 * x0 + coeffs 2 * x0 * x0 + coeffs 3 * x0 * x0 * x0
  let psides0 := m.atan (((3 : Nat) : α) * coeffs 3 * x0 * x0 + ((2 : Nat) : α) * coeffs 2 * x0
    + coeffs 1)
  let fg := fg.set (sadd (sadd 2 x_start) i) (x1 - (x0 + v0 * m.cos psi0 * dt))
  let fg := fg.set (sadd (sadd 2 (y_start N)) i) (y1 - (y0 + v0 * m.sin psi0 * dt))
  let fg := fg.set (sadd (sadd 2 (psi_start N)) i) (psi1 - (psi0 - v0 * delta0 / Lf * dt))
  let fg := fg.set (sadd (sadd 2 (v_start N)) i) (v1 - (v0 + a0 * dt))
  let fg := fg.set (sadd (sadd 2 (cte_start N)) i)
    (cte1 - ((f0 - y0) + (v0 * m.sin epsi0 * dt)))
  fg.set (sadd (sadd 2 (epsi_start N)) i) (epsi1 - ((psi0 - psides0) - v0 * delta0 / Lf * dt))

/-- The method `FG_eval::operator()` (lines 46-112): from the buffer `fg` the
solver passes in and the variable vector `vars`, the buffer it leaves behind. -/
def FG_eval.eval (self : FG_eval α) (m : Cmath α) (N : Nat) (fg : List α) (vars : Nat → α) :
    List α :=
  let fg := costTracking N fg vars
  let fg := costActuation N fg vars
  let fg := costSmoothness N fg vars
  let fg := initialConstraints N fg vars
  forLoop 0 (ssub N 1) (residualStep m N self.coeffs vars) fg

/-- Lines 126-145 of `Solve`: the state after correcting for the delay. -/
def compensate (m : Cmath α) (state coeffs : Nat → α) (steer_value throttle_value : α) :
    State α :=
  let x0 := state 0
  let y0 := state 1
  let psi0 := state 2
  let v0 := state 3
  let epsi0 := state 5
  let f0 := coeffs 0 + coeffs 1 * x0 + coeffs 2 * x0 * x0 + coeffs 3 * x0 * x0 * x0
  let psides0 := m.atan (((3 : Nat) : α) * coeffs 3 * x0 * x0 + ((2 : Nat) : α) * coeffs 2 * x0
    + coeffs 1)
  let delay : α := 0.1
  { x := x0 + v0 * m.cos psi0 * delay
    y := y0 + v0 * m.sin psi0 * delay
    psi := psi0 - v0 * steer_value / Lf * delay
    v := v0 + throttle_value * delay
    cte := (f0 - y0) + (v0 * m.sin epsi0 * delay)
    epsi := (psi0 - psides0) - v0 * steer_value / Lf * delay }

/-- Lines 156-161: the initial value of the independent variables. -/
def initialVars (N : Nat) : Dvector α :=
  forLoop 0 (n_vars N) (fun i vars => vars.write i ((0 : Nat) : α)) (Dvector.alloc (n_vars N))

/-- Lines 173-192: the lower bounds of the variables. -/
def varsLowerbound (N : Nat) : Dvector α :=
  let v : Dvector α := Dvector.alloc (n_vars N)
  let v := forLoop 0 (delta_start N) (fun i v => v.write i (-1.0e19)) v
  let v := forLoop (delta_start N) (a_start N) (fun i v => v.write i (-0.436332 * Lf)) v
  forLoop (a_start N) (n_vars N) (fun i v => v.write i (-1.0)) v

/-- Lines 173-192: the upper bounds of the variables. -/
def varsUpperbound (N : Nat) : Dvector α :=
  let v : Dvector α := Dvector.alloc (n_vars N)
  let v := forLoop 0 (delta_start N) (fun i v => v.write i 1.0e19) v
  let v := forLoop (delta_start N) (a_start N) (fun i v => v.write i (0.436332 * Lf)) v
  forLoop (a_start N) (n_vars N) (fun i v => v.write i 1.0) v

/-- Lines 196-216: one of the two constraint-bound vectors; both are built by
the same statements. -/
def constraintsBound (N : Nat) (s : State α) : Dvector α :=
  let v : Dvector α := Dvector.alloc (n_constraints N)
  let v := forLoop 0 (n_constraints N) (fun i v => v.write i ((0 : Nat) : α)) v
  let v := v.write x_start s.x
  let v := v.write (y_start N) s.y
  let v := v.write (psi_start N) s.psi
  let v := v.write (v_start N) s.v
  let v := v.write (cte_start N) s.cte
  v.write (epsi_start N) s.epsi

/-- Lines 225-237: the option string. -/
def options : String :=
  "Integer print_level  0\n" ++ "Sparse  true        forward\n" ++
    "Sparse  true        reverse\n" ++ "Numeric max_cpu_time          0.5\n"

/-- Lines 121-219: everything `Solve` hands to the solver. -/
def buildProblem (m : Cmath α) (N : Nat) (state coeffs : Nat → α)
    (steer_value throttle_value : α) : Problem α :=
  let s := compensate m state coeffs steer_value throttle_value
  { options := options
    xi := initialVars N
    xl := varsLowerbound N
    xu := varsUpperbound N
    gl := constraintsBound N s
    gu := constraintsBound N s
    fg_eval := { coeffs := coeffs } }

/-- Lines 260-270: the vector `Solve` returns, built from `solution.x`. -/
def extract (N : Nat) (x : Nat → α) : List α :=
  let result : List α := []
  let result := result ++ [x (delta_start N)]
  let result := result ++ [x (a_start N)]
  forLoop 0 (ssub N 1) (fun i result =>
    let result := result ++ [x (sadd (sadd x_start i) 1)]
    result ++ [x (sadd (sadd (y_start N) i) 1)]) result

/-- The method `MPC::Solve` (lines 121-271). -/
def Solve (m : Cmath α) (solver : Problem α → solve_result α) (N : Nat)
    (state coeffs : Nat → α) (steer_value throttle_value : α) : SolveRun α :=
  let ok := true
  let problem := buildProblem m N state coeffs steer_value throttle_value
  let solution := solver problem
  let ok := ok && decide (solution.status = status_type.success)
  let cost := solution.obj_value
  { calls := [problem]
    ok := ok
    cost := cost
    result := extract N solution.x }

/-- The value the residual loop stores for field `f` (0 = x, ..., 5 = epsi) in iteration `i`,
with the index arithmetic resolved. -/
def residualValue (m : Cmath α) (N : Nat) (coeffs vars : Nat → α) (f i : Nat) : α :=
  match f with
  | 0 => vars (i + 1) - (vars i + vars (3 * N + i) * m.cos (vars (2 * N + i)) * dt)
  | 1 => vars (N + i + 1) - (vars (N + i) + vars (3 * N + i) * m.sin (vars (2 * N + i)) * dt)
  | 2 => vars (2 * N + i + 1) - (vars (2 * N + i) - vars (3 * N + i) * vars (6 * N + i) / Lf * dt)
  | 3 => vars (3 * N + i + 1) - (vars (3 * N + i) + vars (7 * N - 1 + i) * dt)
  | 4 => vars (4 * N + i + 1) - ((coeffs 0 + coeffs 1 * vars i + coeffs 2 * vars i * vars i
            + coeffs 3 * vars i * vars i * vars i - vars (N + i))
            + (vars (3 * N + i) * m.sin (vars (5 * N + i)) * dt))
  | _ => vars (5 * N + i + 1) - ((vars (2 * N + i) - m.atan (((3 : Nat) : α) * coeffs 3 * vars i
            * vars i + ((2 : Nat) : α) * coeffs 2 * vars i + coeffs 1))
            - vars (3 * N + i) * vars (6 * N + i) / Lf * dt)


/-- The state variables of step `t` in the variable vector. -/
def stateAt (N : Nat) (vars : Nat → α) (t : Nat) : State α :=
  { x := vars (x_start + t)
    y := vars (y_start N + t)
    psi := vars (psi_start N + t)
    v := vars (v_start N + t)
    cte := vars (cte_start N + t)
    epsi := vars (epsi_start N + t) }

/-- The state variables of step `t`, as the six-entry state vector `Solve` takes. -/
def stateVector (N : Nat) (vars : Nat → α) (t : Nat) : Nat → α := fun i =>
  match i with
  | 0 => vars (x_start + t)
  | 1 => vars (y_start N + t)
  | 2 => vars (psi_start N + t)
  | 3 => vars (v_start N + t)
  | 4 => vars (cte_start N + t)
  | _ => vars (epsi_start N + t)

/-- The variable vector that holds the states `s t` in the six state blocks and the
actuations `delta t`, `a t` in the two actuation blocks. -/
def assemble (N : Nat) (s : Nat → State α) (delta a : Nat → α) : Nat → α := fun i =>
  if i < y_start N then (s (i - x_start)).x
  else if i < psi_start N then (s (i - y_start N)).y
  else if i < v_start N then (s (i - psi_start N)).psi
  else if i < cte_start N then (s (i - v_start N)).v
  else if i < epsi_start N then (s (i - cte_start N)).cte
  else if i < delta_start N then (s (i - epsi_start N)).epsi
  else if i < a_start N then delta (i - delta_start N)
  else a (i - a_start N)

/-- The feasibility test of the solver: `gl[i] ≤ g_i ≤ gu[i]` for every constraint `i`,
where `g_i` is entry `1 + i` of what `FG_eval` left in `fg`. -/
def constraintsHold [LE α] [DecidableRel (LE.le : α → α → Prop)] (gl gu : Dvector α)
    (fg : List α) : Bool :=
  (List.range gl.length).all fun i =>
    match gl[i]?, gu[i]?, fg[1 + i]? with
    | some (some lo), some (some hi), some g => decide (lo ≤ g) && decide (g ≤ hi)
    | _, _, _ => false

end Program

section Exact

variable {F : Type} [Field F]

/-- The value of the cost, with the index arithmetic resolved. -/
def costPlain (N : Nat) (vars : Nat → F) : F :=
  ∑ t in Finset.range N, (2000 * (vars (4 * N + t)) ^ 2
      + 2000 * (vars (5 * N + t)) ^ 2 + (vars (3 * N + t) - 100) ^ 2)
    + ∑ t in Finset.range (N - 1), (5 * (vars (6 * N + t)) ^ 2
      + 5 * (vars (7 * N - 1 + t)) ^ 2)
    + ∑ t in Finset.range (N - 2), (200 * (vars (6 * N + t + 1) - vars (6 * N + t)) ^ 2
      + 10 * (vars (7 * N - 1 + t + 1) - vars (7 * N - 1 + t)) ^ 2)


/-- The vehicle model `advance` as the specification states it (section 4.2), with the
cubic reference polynomial `f` and the desired heading `atan (f' x)`.  Its six formulas are
the right-hand sides of lines 105-110 and of lines 140-145, the step being a parameter. -/
def advance (m : Cmath F) (coeffs : Nat → F) (s : State F) (delta a dt : F) : State F :=
  let f : F → F := fun x => coeffs 0 + coeffs 1 * x + coeffs 2 * x ^ 2 + coeffs 3 * x ^ 3
  let psides : F → F := fun x => m.atan (coeffs 1 + 2 * coeffs 2 * x + 3 * coeffs 3 * x ^ 2)
  { x := s.x + s.v * m.cos s.psi * dt
    y := s.y + s.v * m.sin s.psi * dt
    psi := s.psi - s.v * delta / Lf * dt
    v := s.v + a * dt
    cte := (f s.x - s.y) + s.v * m.sin s.epsi * dt
    epsi := (s.psi - psides s.x) - s.v * delta / Lf * dt }

/-- The model's prediction for step `t`, from the state and actuation variables of step
`t - 1`. -/
def predictedAt (m : Cmath F) (N : Nat) (coeffs vars : Nat → F) (t : Nat) : State F :=
  advance m coeffs (stateAt N vars (t - 1)) (vars (delta_start N + (t - 1)))
    (vars (a_start N + (t - 1))) dt

/-- The forward rollout of the model from `s0` under the actuations `delta t`, `a t`. -/
def rollout (m : Cmath F) (coeffs : Nat → F) (delta a : Nat → F) (dt : F) (s0 : State F) :
    Nat → State F
  | 0 => s0
  | t + 1 => advance m coeffs (rollout m coeffs delta a dt s0 t) (delta t) (a t) dt

end Exact

/-! ## Concrete scalars, to run the program -/

/-- A stand-in for `sin`, `cos`, `atan` on the rationals: their Maclaurin polynomials of
degree three, exact at 0. -/
def polyCmath : Cmath ℚ :=
  { sin := fun x => x - x ^ 3 / 6
    cos := fun x => 1 - x ^ 2 / 2
    atan := fun x => x - x ^ 3 / 3 }

/-- A `double` that may be non-finite: a rational or NaN. -/
inductive Dbl where
  | fin (q : ℚ)
  | nan
  deriving DecidableEq

/-- A binary operation on `Dbl`; NaN propagates. -/
def Dbl.map2 (f : ℚ → ℚ → ℚ) : Dbl → Dbl → Dbl
  | Dbl.fin a, Dbl.fin b => Dbl.fin (f a b)
  | _, _ => Dbl.nan

/-- A unary operation on `Dbl`; NaN propagates. -/
def Dbl.map1 (f : ℚ → ℚ) : Dbl → Dbl
  | Dbl.fin a => Dbl.fin (f a)
  | Dbl.nan => Dbl.nan

/-- Division on `Dbl`: dividing by zero gives a non-finite value. -/
def Dbl.div : Dbl → Dbl → Dbl
  | Dbl.fin a, Dbl.fin b => if b = 0 then Dbl.nan else Dbl.fin (a / b)
  | _, _ => Dbl.nan

instance : Add Dbl := ⟨Dbl.map2 (fun a b => a + b)⟩
instance : Sub Dbl := ⟨Dbl.map2 (fun a b => a - b)⟩
instance : Mul Dbl := ⟨Dbl.map2 (fun a b => a * b)⟩
instance : Div Dbl := ⟨Dbl.div⟩
instance : Neg Dbl := ⟨Dbl.map1 (fun a => -a)⟩
instance : NatCast Dbl := ⟨fun n => Dbl.fin n⟩
instance : OfScientific Dbl := ⟨fun mant s e => Dbl.fin (OfScientific.ofScientific mant s e)⟩
instance : Pow Dbl Nat := ⟨fun a n => Dbl.map1 (fun q => q ^ n) a⟩

/-- The stand-in `polyCmath` on `Dbl`; NaN propagates. -/
def dblCmath : Cmath Dbl :=
  { sin := Dbl.map1 polyCmath.sin
    cos := Dbl.map1 polyCmath.cos
    atan := Dbl.map1 polyCmath.atan }

/-- Whether a `Dbl` is finite. -/
def Dbl.isFinite : Dbl → Bool
  | Dbl.fin _ => true
  | Dbl.nan => false

/-- The raw state `(0, 0, 0, 10, 0, 0)`. -/
def demoState : Nat → ℚ := fun i => if i = 3 then 10 else 0

/-- The coefficients `(0, 0, 0, 0)` of a flat reference path. -/
def demoCoeffs : Nat → ℚ := fun _ => 0

/-- A variable vector with distinct entries: entry `i` is `i`. -/
def demoVars : Nat → ℚ := fun i => (i : ℚ)

/-- A solver that reports success with the all-zero solution. -/
def zeroSolver : Problem ℚ → solve_result ℚ :=
  fun _ => { status := status_type.success, x := fun _ => 0, obj_value := 0 }

/-- A solver that gives up: status `maxiter_exceeded`, every entry of the iterate is 5. -/
def stuckSolver : Problem ℚ → solve_result ℚ :=
  fun _ => { status := status_type.maxiter_exceeded, x := fun _ => 5, obj_value := 0 }

/-- The solver that would have converged to the iterate `stuckSolver` stops at. -/
def luckySolver : Problem ℚ → solve_result ℚ :=
  fun _ => { status := status_type.success, x := fun _ => 5, obj_value := 0 }

/-- A raw state whose first component is NaN. -/
def nanState : Nat → Dbl := fun i => if i = 0 then Dbl.nan else Dbl.fin 0

/-- A solver on `Dbl` that reports success with the all-zero solution. -/
def dblSolver : Problem Dbl → solve_result Dbl :=
  fun _ => { status := status_type.success, x := fun _ => Dbl.fin 0, obj_value := Dbl.fin 0 }

/-! ## Loops and index arithmetic -/

theorem forLoop_succ {σ : Type} (lo hi : Nat) (body : Nat → σ → σ) (s : σ) (h : lo ≤ hi) :
    forLoop lo (hi + 1) body s = body hi (forLoop lo hi body s) := by
  have e : hi + 1 - lo = (hi - lo) + 1 := by omega
  have e2 : lo + (hi - lo) = hi := by omega
  simp [forLoop, e, List.range'_concat, e2]

theorem forLoop_self {σ : Type} (lo : Nat) (body : Nat → σ → σ) (s : σ) :
    forLoop lo lo body s = s := by
  simp [forLoop]

/-- Invariant rule for `forLoop`. -/
theorem forLoop_invariant {σ : Type} (P : Nat → σ → Prop) (lo hi : Nat) (body : Nat → σ → σ)
    (s : σ) (hle : lo ≤ hi) (h0 : P lo s)
    (hstep : ∀ i s, lo ≤ i → i < hi → P i s → P (i + 1) (body i s)) :
    P hi (forLoop lo hi body s) := by
  induction hi with
  | zero =>
    have : lo = 0 := by omega
    subst this
    simpa [forLoop_self] using h0
  | succ k ih =>
    rcases Nat.eq_or_lt_of_le hle with h | h
    · subst h
      simpa [forLoop_self] using h0
    · have hk : lo ≤ k := by omega
      rw [forLoop_succ _ _ _ _ hk]
      exact hstep k _ hk (by omega) (ih hk (fun i s h1 h2 hp => hstep i s h1 (by omega) hp))

theorem offsets_of_fit (N : Nat) (h1 : 1 ≤ N) (hfit : 8 * N < SIZE_MOD) :
    y_start N = N ∧ psi_start N = 2 * N ∧ v_start N = 3 * N ∧ cte_start N = 4 * N ∧
    epsi_start N = 5 * N ∧ delta_start N = 6 * N ∧ a_start N = 7 * N - 1 ∧
    n_vars N = 8 * N - 2 ∧ n_constraints N = 6 * N := by
  simp only [y_start, psi_start, v_start, cte_start, epsi_start, delta_start, a_start, n_vars,
    n_constraints, x_start, sadd, ssub, smul, SIZE_MOD] at *
  omega

theorem sadd_of_lt (a b : Nat) (h : a + b < 18446744073709551616) : sadd a b = a + b := by
  simp only [sadd, SIZE_MOD]; exact Nat.mod_eq_of_lt h

theorem ssub_of_le (a b : Nat) (h : b ≤ a) (ha : a < 18446744073709551616) :
    ssub a b = a - b := by
  simp only [ssub, SIZE_MOD]; omega

section Residuals

variable {α : Type} [Add α] [Sub α] [Mul α] [Div α] [Neg α] [NatCast α] [OfScientific α]
  [Pow α Nat]

theorem residualStep_plain (m : Cmath α) (N : Nat) (coeffs vars : Nat → α) (i : Nat)
    (fg : List α) (h1 : 1 ≤ N) (hfit : 8 * N < SIZE_MOD) (hi : i + 1 < N) :
    residualStep m N coeffs vars i fg =
      (((((fg.set (2 + i) (residualValue m N coeffs vars 0 i)).set
        (2 + N + i) (residualValue m N coeffs vars 1 i)).set
        (2 + 2 * N + i) (residualValue m N coeffs vars 2 i)).set
        (2 + 3 * N + i) (residualValue m N coeffs vars 3 i)).set
        (2 + 4 * N + i) (residualValue m N coeffs vars 4 i)).set
        (2 + 5 * N + i) (residualValue m N coeffs vars 5 i) := by
  obtain ⟨e1, e2, e3, e4, e5, e6, e7, -, -⟩ := offsets_of_fit N h1 hfit
  simp only [SIZE_MOD] at hfit
  simp only [residualStep, residualValue, e1, e2, e3, e4, e5, e6, e7, x_start]
  simp (disch := omega) only [sadd_of_lt, Nat.zero_add, Nat.add_zero]

/-- The residual loop: lengths, the entries it writes and the entries it leaves alone. -/
theorem residualLoop_spec (m : Cmath α) (N : Nat) (coeffs vars : Nat → α) (fg : List α)
    (h1 : 1 ≤ N) (hfit : 8 * N < SIZE_MOD) (hlen : fg.length = 1 + 6 * N) :
    let out := forLoop 0 (ssub N 1) (residualStep m N coeffs vars) fg
    out.length = fg.length ∧
    (∀ j, (∀ i, i + 1 < N → j ≠ 2 + i ∧ j ≠ 2 + N + i ∧ j ≠ 2 + 2 * N + i ∧ j ≠ 2 + 3 * N + i ∧
        j ≠ 2 + 4 * N + i ∧ j ≠ 2 + 5 * N + i) → out[j]? = fg[j]?) ∧
    (∀ t, t + 1 < N →
      out[2 + t]? = some (residualValue m N coeffs vars 0 t) ∧
      out[2 + N + t]? = some (residualValue m N coeffs vars 1 t) ∧
      out[2 + 2 * N + t]? = some (residualValue m N coeffs vars 2 t) ∧
      out[2 + 3 * N + t]? = some (residualValue m N coeffs vars 3 t) ∧
      out[2 + 4 * N + t]? = some (residualValue m N coeffs vars 4 t) ∧
      out[2 + 5 * N + t]? = some (residualValue m N coeffs vars 5 t)) := by
  have hN1 : ssub N 1 = N - 1 := by
    have hf := hfit
    simp only [SIZE_MOD] at hf
    exact ssub_of_le N 1 h1 (by omega)
  rw [hN1]
  have key := forLoop_invariant
    (fun k (s : List α) => s.length = fg.length ∧
      (∀ j, (∀ i, i < k → j ≠ 2 + i ∧ j ≠ 2 + N + i ∧ j ≠ 2 + 2 * N + i ∧ j ≠ 2 + 3 * N + i ∧
        j ≠ 2 + 4 * N + i ∧ j ≠ 2 + 5 * N + i) → s[j]? = fg[j]?) ∧
      (∀ t, t < k →
        s[2 + t]? = some (residualValue m N coeffs vars 0 t) ∧
        s[2 + N + t]? = some (residualValue m N coeffs vars 1 t) ∧
        s[2 + 2 * N + t]? = some (residualValue m N coeffs vars 2 t) ∧
        s[2 + 3 * N + t]? = some (residualValue m N coeffs vars 3 t) ∧
        s[2 + 4 * N + t]? = some (residualValue m N coeffs vars 4 t) ∧
        s[2 + 5 * N + t]? = some (residualValue m N coeffs vars 5 t)))
    0 (N - 1) (residualStep m N coeffs vars) fg (Nat.zero_le _)
    ⟨rfl, fun _ _ => rfl, fun t ht => absurd ht (Nat.not_lt_zero t)⟩
    (by
      intro i s _ hi ⟨hl, hframe, hval⟩
      rw [residualStep_plain m N coeffs vars i s h1 hfit (by omega)]
      refine ⟨by simp [hl], ?_, ?_⟩
      · intro j hj
        have hji := hj i (Nat.lt_succ_self i)
        rw [List.getElem?_set_ne (by omega), List.getElem?_set_ne (by omega),
          List.getElem?_set_ne (by omega), List.getElem?_set_ne (by omega),
          List.getElem?_set_ne (by omega), List.getElem?_set_ne (by omega)]
        exact hframe j (fun i2 h2 => hj i2 (Nat.lt_succ_of_lt h2))
      · intro t ht
        rcases Nat.lt_succ_iff_lt_or_eq.mp ht with h | h
        · have hv := hval t h
          refine ⟨?_, ?_, ?_, ?_, ?_, ?_⟩ <;>
            (rw [List.getElem?_set_ne (by omega), List.getElem?_set_ne (by omega),
              List.getElem?_set_ne (by omega), List.getElem?_set_ne (by omega),
              List.getElem?_set_ne (by omega), List.getElem?_set_ne (by omega)]) <;>
            simp only [hv]
        · subst h
          refine ⟨?_, ?_, ?_, ?_, ?_, ?_⟩ <;>
            (repeat rw [List.getElem?_set_ne (by omega)]) <;>
            rw [List.getElem?_set_self (by simp only [List.length_set, hl, hlen]; omega)])
  refine ⟨key.1, fun j hj => key.2.1 j (fun i hi => hj i (by omega)),
    fun t ht => key.2.2 t (by omega)⟩
end Residuals

section Cost

variable {F : Type} [Field F]

theorem addAt_set (fg : List F) (a e : F) (h : 0 < fg.length) :
    addAt (fg.set 0 a) 0 e = fg.set 0 (a + e) := by
  simp [addAt, List.getElem?_set_self h, List.set_set]

/-- A loop whose body adds `h i` to `fg[0]` adds up the sum of the `h i`. -/
theorem forLoop_accumulate (fg : List F) (n : Nat) (body : Nat → List F → List F) (h : Nat → F)
    (a0 : F) (hbody : ∀ i, i < n → ∀ a, body i (fg.set 0 a) = fg.set 0 (a + h i)) :
    forLoop 0 n body (fg.set 0 a0) = fg.set 0 (a0 + ∑ i in Finset.range n, h i) := by
  refine forLoop_invariant
    (fun k s => s = fg.set 0 (a0 + ∑ i in Finset.range k, h i)) 0 n body _ (Nat.zero_le _)
    (by simp) ?_
  intro i s _ hi hs
  subst hs
  rw [hbody i hi, Finset.sum_range_succ, add_assoc]

theorem cost_eq (N : Nat) (fg : List F) (vars : Nat → F) (hN : 2 ≤ N) (hfit : 8 * N < SIZE_MOD)
    (hlen : 0 < fg.length) :
    costSmoothness N (costActuation N (costTracking N fg vars) vars) vars =
      fg.set 0 (costPlain N vars) := by
  obtain ⟨e1, e2, e3, e4, e5, e6, e7, -, -⟩ := offsets_of_fit N (by omega) hfit
  have hf := hfit
  simp only [SIZE_MOD] at hf
  have s1 : ssub N 1 = N - 1 := ssub_of_le N 1 (by omega) (by omega)
  have s2 : ssub N 2 = N - 2 := ssub_of_le N 2 (by omega) (by omega)
  have t1 : costTracking N fg vars = fg.set 0 (0 + ∑ t in Finset.range N,
      (2000 * (vars (4 * N + t)) ^ 2 + 2000 * (vars (5 * N + t)) ^ 2
        + (vars (3 * N + t) - 100) ^ 2)) := by
    unfold costTracking
    simp only [Nat.cast_zero]
    refine forLoop_accumulate fg N _ _ 0 ?_
    intro i hi a
    simp only [e3, e4, e5, ref_cte, ref_epsi, ref_v]
    simp (disch := omega) only [sadd_of_lt]
    rw [addAt_set _ _ _ hlen, addAt_set _ _ _ hlen, addAt_set _ _ _ hlen]
    simp only [Nat.cast_ofNat, Nat.cast_zero]
    refine congrArg _ ?_
    ring
  have t2 : ∀ a, costActuation N (fg.set 0 a) vars = fg.set 0 (a + ∑ t in Finset.range (N - 1),
      (5 * (vars (6 * N + t)) ^ 2 + 5 * (vars (7 * N - 1 + t)) ^ 2)) := by
    intro a
    unfold costActuation
    rw [s1]
    refine forLoop_accumulate fg (N - 1) _ _ a ?_
    intro i hi a
    simp only [e6, e7]
    simp (disch := omega) only [sadd_of_lt]
    rw [addAt_set _ _ _ hlen, addAt_set _ _ _ hlen]
    simp only [Nat.cast_ofNat]
    refine congrArg _ ?_
    ring
  have t3 : ∀ a, costSmoothness N (fg.set 0 a) vars = fg.set 0 (a + ∑ t in Finset.range (N - 2),
      (200 * (vars (6 * N + t + 1) - vars (6 * N + t)) ^ 2
          + 10 * (vars (7 * N - 1 + t + 1) - vars (7 * N - 1 + t)) ^ 2)) := by
    intro a
    unfold costSmoothness
    rw [s2]
    refine forLoop_accumulate fg (N - 2) _ _ a ?_
    intro i hi a
    simp only [e6, e7]
    simp (disch := omega) only [sadd_of_lt]
    rw [addAt_set _ _ _ hlen, addAt_set _ _ _ hlen]
    simp only [Nat.cast_ofNat]
    refine congrArg _ ?_
    ring
  rw [t1, t2, t3, zero_add, costPlain]

theorem initialConstraints_plain (N : Nat) (fg : List F) (vars : Nat → F) (h1 : 1 ≤ N)
    (hfit : 8 * N < SIZE_MOD) :
    initialConstraints N fg vars =
      (((((fg.set 1 (vars 0)).set (1 + N) (vars N)).set (1 + 2 * N) (vars (2 * N))).set
        (1 + 3 * N) (vars (3 * N))).set (1 + 4 * N) (vars (4 * N))).set (1 + 5 * N)
        (vars (5 * N)) := by
  obtain ⟨e1, e2, e3, e4, e5, -, -, -, -⟩ := offsets_of_fit N h1 hfit
  simp only [SIZE_MOD] at hfit
  simp only [initialConstraints, e1, e2, e3, e4, e5, x_start]
  simp (disch := omega) only [sadd_of_lt, Nat.add_zero]

/-- Every entry `FG_eval::operator()` leaves in `fg`. -/
theorem FG_eval_spec (m : Cmath F) (N : Nat) (coeffs vars : Nat → F) (fg : List F)
    (hN : 2 ≤ N) (hfit : 8 * N < SIZE_MOD) (hlen : fg.length = 1 + 6 * N) :
    (FG_eval.eval (FG_eval.mk coeffs) m N fg vars).length = 1 + 6 * N ∧
    (FG_eval.eval (FG_eval.mk coeffs) m N fg vars)[0]? = some (costPlain N vars) ∧
    ((FG_eval.eval (FG_eval.mk coeffs) m N fg vars)[1]? = some (vars 0) ∧
      (FG_eval.eval (FG_eval.mk coeffs) m N fg vars)[1 + N]? = some (vars N) ∧
      (FG_eval.eval (FG_eval.mk coeffs) m N fg vars)[1 + 2 * N]? = some (vars (2 * N)) ∧
      (FG_eval.eval (FG_eval.mk coeffs) m N fg vars)[1 + 3 * N]? = some (vars (3 * N)) ∧
      (FG_eval.eval (FG_eval.mk coeffs) m N fg vars)[1 + 4 * N]? = some (vars (4 * N)) ∧
      (FG_eval.eval (FG_eval.mk coeffs) m N fg vars)[1 + 5 * N]? = some (vars (5 * N))) ∧
    (∀ t, t + 1 < N →
      (FG_eval.eval (FG_eval.mk coeffs) m N fg vars)[2 + t]? =
        some (residualValue m N coeffs vars 0 t) ∧
      (FG_eval.eval (FG_eval.mk coeffs) m N fg vars)[2 + N + t]? =
        some (residualValue m N coeffs vars 1 t) ∧
      (FG_eval.eval (FG_eval.mk coeffs) m N fg vars)[2 + 2 * N + t]? =
        some (residualValue m N coeffs vars 2 t) ∧
      (FG_eval.eval (FG_eval.mk coeffs) m N fg vars)[2 + 3 * N + t]? =
        some (residualValue m N coeffs vars 3 t) ∧
      (FG_eval.eval (FG_eval.mk coeffs) m N fg vars)[2 + 4 * N + t]? =
        some (residualValue m N coeffs vars 4 t) ∧
      (FG_eval.eval (FG_eval.mk coeffs) m N fg vars)[2 + 5 * N + t]? =
        some (residualValue m N coeffs vars 5 t)) := by
  have h1 : 1 ≤ N := by omega
  have hmid : initialConstraints N
      (costSmoothness N (costActuation N (costTracking N fg vars) vars) vars) vars =
      ((((((fg.set 0 (costPlain N vars)).set 1 (vars 0)).set (1 + N) (vars N)).set (1 + 2 * N)
        (vars (2 * N))).set (1 + 3 * N) (vars (3 * N))).set (1 + 4 * N) (vars (4 * N))).set
        (1 + 5 * N) (vars (5 * N)) := by
    rw [cost_eq N fg vars hN hfit (by omega), initialConstraints_plain _ _ _ h1 hfit]
  have hmlen : (initialConstraints N
      (costSmoothness N (costActuation N (costTracking N fg vars) vars) vars) vars).length
      = 1 + 6 * N := by
    rw [hmid]; simp only [List.length_set, hlen]
  obtain ⟨rl, rframe, rval⟩ := residualLoop_spec m N coeffs vars _ h1 hfit hmlen
  simp only [FG_eval.eval]
  refine ⟨by rw [rl, hmlen], ?_, ⟨?_, ?_, ?_, ?_, ?_, ?_⟩, rval⟩
  · rw [rframe 0 (fun i hi => by omega), hmid]
    repeat rw [List.getElem?_set_ne (by omega)]
    rw [List.getElem?_set_self (by omega)]
  all_goals
    rw [rframe _ (fun i hi => by omega), hmid]
    repeat rw [List.getElem?_set_ne (by omega)]
    rw [List.getElem?_set_self (by simp only [List.length_set, hlen]; omega)]

theorem psides_arg (c1 c2 c3 x : F) :
    ((3 : Nat) : F) * c3 * x * x + ((2 : Nat) : F) * c2 * x + c1
      = c1 + 2 * c2 * x + 3 * c3 * x ^ 2 := by
  simp only [Nat.cast_ofNat]
  ring

theorem poly_arg (c0 c1 c2 c3 x : F) :
    c0 + c1 * x + c2 * x * x + c3 * x * x * x = c0 + c1 * x + c2 * x ^ 2 + c3 * x ^ 3 := by
  ring

end Cost

/-! ## The vectors built in `Solve` -/

theorem forLoop_write {α : Type} (lo hi : Nat) (a : α) (v : Dvector α) (hle : lo ≤ hi) :
    (forLoop lo hi (fun i v => Dvector.write v i a) v).length = v.length ∧
    ∀ j, (forLoop lo hi (fun i v => Dvector.write v i a) v)[j]? =
      if lo ≤ j ∧ j < hi ∧ j < v.length then some (some a) else v[j]? := by
  refine forLoop_invariant
    (fun k (s : Dvector α) => s.length = v.length ∧
      ∀ j, s[j]? = if lo ≤ j ∧ j < k ∧ j < v.length then some (some a) else v[j]?)
    lo hi _ v hle ⟨rfl, fun j => by rw [if_neg (by omega)]⟩ ?_
  intro i s hlo _ ⟨hl, hs⟩
  refine ⟨by simp only [Dvector.write, List.length_set, hl], fun j => ?_⟩
  simp only [Dvector.write, List.getElem?_set, hl]
  by_cases hij : i = j
  · subst hij
    by_cases hlt : i < v.length
    · rw [if_pos rfl, if_pos hlt, if_pos ⟨hlo, Nat.lt_succ_self i, hlt⟩]
    · rw [if_pos rfl, if_neg hlt, if_neg (by omega)]
      exact (List.getElem?_eq_none (by omega)).symm
  · rw [if_neg hij, hs j]
    by_cases hc : lo ≤ j ∧ j < i ∧ j < v.length
    · rw [if_pos hc, if_pos ⟨hc.1, by omega, hc.2.2⟩]
    · rw [if_neg hc, if_neg (by omega)]

theorem alloc_getElem? {α : Type} (n j : Nat) :
    (Dvector.alloc n : Dvector α)[j]? = if j < n then some none else none := by
  simp only [Dvector.alloc, List.getElem?_replicate]

theorem alloc_length {α : Type} (n : Nat) : (Dvector.alloc n : Dvector α).length = n := by
  simp only [Dvector.alloc, List.length_replicate]

section Vectors

variable {α : Type} [Add α] [Sub α] [Mul α] [Div α] [Neg α] [NatCast α] [OfScientific α]
  [Pow α Nat]

/-- A vector built by three consecutive block loops over an allocation. -/
theorem threeBlocks (n b c : Nat) (x y z : α) (hb : b ≤ c) (hc : c ≤ n) :
    (forLoop c n (fun i v => Dvector.write v i z)
      (forLoop b c (fun i v => Dvector.write v i y)
        (forLoop 0 b (fun i v => Dvector.write v i x) (Dvector.alloc n)))).length = n ∧
    ∀ j, (forLoop c n (fun i v => Dvector.write v i z)
      (forLoop b c (fun i v => Dvector.write v i y)
        (forLoop 0 b (fun i v => Dvector.write v i x) (Dvector.alloc n))))[j]? =
      if j < b then some (some x) else if j < c then some (some y)
      else if j < n then some (some z) else none := by
  obtain ⟨l1, g1⟩ := forLoop_write 0 b x (Dvector.alloc n) (Nat.zero_le _)
  obtain ⟨l2, g2⟩ := forLoop_write b c y _ hb
  obtain ⟨l3, g3⟩ := forLoop_write c n z _ hc
  refine ⟨by rw [l3, l2, l1, alloc_length], fun j => ?_⟩
  rw [g3, g2, g1, l2, l1, alloc_length, alloc_getElem?]
  by_cases h1 : j < b
  · rw [if_neg (by omega), if_neg (by omega), if_pos (by omega), if_pos h1]
  · by_cases h2 : j < c
    · rw [if_neg (by omega), if_pos (by omega), if_neg h1, if_pos h2]
    · by_cases h3 : j < n
      · rw [if_pos (by omega), if_neg h1, if_neg h2, if_pos h3]
      · rw [if_neg (by omega), if_neg (by omega), if_neg (by omega), if_neg h3, if_neg h1,
          if_neg h2, if_neg h3]

theorem varsLowerbound_spec (N : Nat) (h1 : 1 ≤ N) (hfit : 8 * N < SIZE_MOD) :
    (varsLowerbound N : Dvector α).length = 8 * N - 2 ∧
    ∀ j, (varsLowerbound N : Dvector α)[j]? =
      if j < 6 * N then some (some (-1.0e19)) else if j < 7 * N - 1 then
        some (some (-0.436332 * Lf))
      else if j < 8 * N - 2 then some (some (-1.0)) else none := by
  obtain ⟨-, -, -, -, -, e6, e7, e8, -⟩ := offsets_of_fit N h1 hfit
  simp only [varsLowerbound, e6, e7, e8]
  exact threeBlocks _ _ _ _ _ _ (by omega) (by omega)

theorem varsUpperbound_spec (N : Nat) (h1 : 1 ≤ N) (hfit : 8 * N < SIZE_MOD) :
    (varsUpperbound N : Dvector α).length = 8 * N - 2 ∧
    ∀ j, (varsUpperbound N : Dvector α)[j]? =
      if j < 6 * N then some (some 1.0e19) else if j < 7 * N - 1 then
        some (some (0.436332 * Lf))
      else if j < 8 * N - 2 then some (some 1.0) else none := by
  obtain ⟨-, -, -, -, -, e6, e7, e8, -⟩ := offsets_of_fit N h1 hfit
  simp only [varsUpperbound, e6, e7, e8]
  exact threeBlocks _ _ _ _ _ _ (by omega) (by omega)

theorem constraintsBound_spec (N : Nat) (s : State α) (h1 : 1 ≤ N) (hfit : 8 * N < SIZE_MOD) :
    (constraintsBound N s).length = 6 * N ∧
    (constraintsBound N s)[0]? = some (some s.x) ∧
    (constraintsBound N s)[N]? = some (some s.y) ∧
    (constraintsBound N s)[2 * N]? = some (some s.psi) ∧
    (constraintsBound N s)[3 * N]? = some (some s.v) ∧
    (constraintsBound N s)[4 * N]? = some (some s.cte) ∧
    (constraintsBound N s)[5 * N]? = some (some s.epsi) ∧
    ∀ j, j < 6 * N → j ≠ 0 → j ≠ N → j ≠ 2 * N → j ≠ 3 * N → j ≠ 4 * N → j ≠ 5 * N →
      (constraintsBound N s)[j]? = some (some ((0 : Nat) : α)) := by
  obtain ⟨e1, e2, e3, e4, e5, -, -, -, e9⟩ := offsets_of_fit N h1 hfit
  obtain ⟨l0, g0⟩ := forLoop_write 0 (6 * N) ((0 : Nat) : α) (Dvector.alloc (6 * N))
    (Nat.zero_le _)
  rw [alloc_length] at l0
  simp only [Dvector.write] at l0 g0
  simp only [constraintsBound, e1, e2, e3, e4, e5, e9, x_start, Dvector.write]
  refine ⟨by simp only [List.length_set, l0], ?_, ?_, ?_, ?_, ?_, ?_, ?_⟩
  · repeat rw [List.getElem?_set_ne (by omega)]
    rw [List.getElem?_set_self (by simp only [List.length_set, l0]; omega)]
  · repeat rw [List.getElem?_set_ne (by omega)]
    rw [List.getElem?_set_self (by simp only [List.length_set, l0]; omega)]
  · repeat rw [List.getElem?_set_ne (by omega)]
    rw [List.getElem?_set_self (by simp only [List.length_set, l0]; omega)]
  · repeat rw [List.getElem?_set_ne (by omega)]
    rw [List.getElem?_set_self (by simp only [List.length_set, l0]; omega)]
  · repeat rw [List.getElem?_set_ne (by omega)]
    rw [List.getElem?_set_self (by simp only [List.length_set, l0]; omega)]
  · rw [List.getElem?_set_self (by simp only [List.length_set, l0]; omega)]
  · intro j hj n0 n1 n2 n3 n4 n5
    rw [List.getElem?_set_ne (by omega), List.getElem?_set_ne (by omega),
      List.getElem?_set_ne (by omega), List.getElem?_set_ne (by omega),
      List.getElem?_set_ne (by omega), List.getElem?_set_ne (by omega), g0 j,
      alloc_length, if_pos ⟨Nat.zero_le _, hj, hj⟩]

theorem extract_spec (N : Nat) (x : Nat → α) (h1 : 1 ≤ N) (hfit : 8 * N < SIZE_MOD) :
    (extract N x).length = 2 * N ∧
    (extract N x)[0]? = some (x (6 * N)) ∧
    (extract N x)[1]? = some (x (7 * N - 1)) ∧
    ∀ t, 1 ≤ t → t ≤ N - 1 →
      (extract N x)[2 * t]? = some (x t) ∧ (extract N x)[2 * t + 1]? = some (x (N + t)) := by
  obtain ⟨e1, -, -, -, -, e6, e7, -, -⟩ := offsets_of_fit N h1 hfit
  have hf := hfit
  simp only [SIZE_MOD] at hf
  have s1 : ssub N 1 = N - 1 := ssub_of_le N 1 h1 (by omega)
  simp only [extract, e1, e6, e7, s1, x_start, List.nil_append]
  have key := forLoop_invariant
    (fun k (r : List α) => r.length = 2 + 2 * k ∧ r[0]? = some (x (6 * N)) ∧
      r[1]? = some (x (7 * N - 1)) ∧
      ∀ t, 1 ≤ t → t ≤ k → r[2 * t]? = some (x t) ∧ r[2 * t + 1]? = some (x (N + t)))
    0 (N - 1)
    (fun i result => result ++ [x (sadd (sadd 0 i) 1)] ++ [x (sadd (sadd N i) 1)])
    ([x (6 * N)] ++ [x (7 * N - 1)]) (Nat.zero_le _)
    ⟨rfl, rfl, rfl, fun t ht1 ht0 => absurd ht1 (by omega)⟩
    (by
      intro i r _ hi ⟨hl, h0, h1', hv⟩
      have a1 : sadd (sadd 0 i) 1 = i + 1 := by
        simp (disch := omega) only [sadd_of_lt, Nat.zero_add]
      have a2 : sadd (sadd N i) 1 = N + (i + 1) := by
        simp (disch := omega) only [sadd_of_lt, Nat.add_assoc]
      show (r ++ [x (sadd (sadd 0 i) 1)] ++ [x (sadd (sadd N i) 1)]).length = _ ∧
        (r ++ [x (sadd (sadd 0 i) 1)] ++ [x (sadd (sadd N i) 1)])[0]? = _ ∧
        (r ++ [x (sadd (sadd 0 i) 1)] ++ [x (sadd (sadd N i) 1)])[1]? = _ ∧
        ∀ t, 1 ≤ t → t ≤ i + 1 →
          (r ++ [x (sadd (sadd 0 i) 1)] ++ [x (sadd (sadd N i) 1)])[2 * t]? = _ ∧
          (r ++ [x (sadd (sadd 0 i) 1)] ++ [x (sadd (sadd N i) 1)])[2 * t + 1]? = _
      rw [a1, a2]
      refine ⟨by simp only [List.length_append, List.length_singleton, hl]; omega, ?_, ?_, ?_⟩
      · rw [List.append_assoc, List.getElem?_append_left (by omega), h0]
      · rw [List.append_assoc, List.getElem?_append_left (by omega), h1']
      · intro t ht1 ht
        rcases Nat.lt_succ_iff_lt_or_eq.mp (Nat.lt_succ_of_le ht) with h | h
        · rw [List.append_assoc, List.getElem?_append_left (by omega),
            List.getElem?_append_left (by omega)]
          exact hv t ht1 (by omega)
        · subst h
          constructor
          · rw [List.getElem?_append_left
              (by simp only [List.length_append, List.length_singleton, hl]; omega),
              List.getElem?_append_right (by omega)]
            have : 2 * (i + 1) - r.length = 0 := by omega
            rw [this]; rfl
          · rw [List.getElem?_append_right
              (by simp only [List.length_append, List.length_singleton, hl]; omega)]
            have : 2 * (i + 1) + 1 - (r ++ [x (i + 1)]).length = 0 := by
              simp only [List.length_append, List.length_singleton, hl]; omega
            rw [this]; rfl)
  exact ⟨by rw [key.1]; omega, key.2.1, key.2.2.1, key.2.2.2⟩

theorem extract_eq (N : Nat) (x : Nat → α) (h1 : 1 ≤ N) (hfit : 8 * N < SIZE_MOD) :
    extract N x = x (6 * N) :: x (7 * N - 1) ::
      (List.range (N - 1)).flatMap (fun i => [x (i + 1), x (N + (i + 1))]) := by
  obtain ⟨e1, -, -, -, -, e6, e7, -, -⟩ := offsets_of_fit N h1 hfit
  have hf := hfit
  simp only [SIZE_MOD] at hf
  have s1 : ssub N 1 = N - 1 := ssub_of_le N 1 h1 (by omega)
  simp only [extract, e1, e6, e7, s1, x_start, List.nil_append]
  refine forLoop_invariant
    (fun k (r : List α) => r = x (6 * N) :: x (7 * N - 1) ::
      (List.range k).flatMap (fun i => [x (i + 1), x (N + (i + 1))]))
    0 (N - 1) _ _ (Nat.zero_le _) rfl ?_
  intro i r _ hi hr
  have a1 : sadd (sadd 0 i) 1 = i + 1 := by
    simp (disch := omega) only [sadd_of_lt, Nat.zero_add]
  have a2 : sadd (sadd N i) 1 = N + (i + 1) := by
    simp (disch := omega) only [sadd_of_lt, Nat.add_assoc]
  show r ++ [x (sadd (sadd 0 i) 1)] ++ [x (sadd (sadd N i) 1)] = _
  rw [a1, a2, hr, List.range_succ, List.flatMap_append]
  simp

end Vectors

/-- What feasibility says about one constraint. -/
theorem constraintsHold_at {K : Type} [LinearOrderedField K] (gl gu : Dvector K) (fg : List K)
    (h : constraintsHold gl gu fg = true) (i : Nat) (lo hi g : K) (hlt : i < gl.length)
    (h1 : gl[i]? = some (some lo)) (h2 : gu[i]? = some (some hi)) (h3 : fg[1 + i]? = some g) :
    lo ≤ g ∧ g ≤ hi := by
  unfold constraintsHold at h
  rw [List.all_eq_true] at h
  have hh := h i (List.mem_range.mpr hlt)
  rw [h1, h2, h3] at hh
  simpa only [Bool.and_eq_true, decide_eq_true_eq] using hh

/-! ## Cost, rollout and feasibility -/

theorem costPlain_nonneg {K : Type} [LinearOrderedField K] (N : Nat) (vars : Nat → K) :
    0 ≤ costPlain N vars := by
  unfold costPlain
  refine add_nonneg (add_nonneg ?_ ?_) ?_ <;> refine Finset.sum_nonneg (fun t _ => ?_) <;>
    positivity

theorem costPlain_eq_zero_iff {K : Type} [LinearOrderedField K] (N : Nat) (vars : Nat → K) :
    costPlain N vars = 0 ↔
      (∀ t, t < N → vars (4 * N + t) = 0 ∧ vars (5 * N + t) = 0 ∧ vars (3 * N + t) = 100) ∧
      (∀ t, t < N - 1 → vars (6 * N + t) = 0 ∧ vars (7 * N - 1 + t) = 0) := by
  have n1 : 0 ≤ ∑ t in Finset.range N, (2000 * (vars (4 * N + t)) ^ 2
      + 2000 * (vars (5 * N + t)) ^ 2 + (vars (3 * N + t) - 100) ^ 2) :=
    Finset.sum_nonneg (fun t _ => by positivity)
  have n2 : 0 ≤ ∑ t in Finset.range (N - 1), (5 * (vars (6 * N + t)) ^ 2
      + 5 * (vars (7 * N - 1 + t)) ^ 2) :=
    Finset.sum_nonneg (fun t _ => by positivity)
  have n3 : 0 ≤ ∑ t in Finset.range (N - 2),
      (200 * (vars (6 * N + t + 1) - vars (6 * N + t)) ^ 2
        + 10 * (vars (7 * N - 1 + t + 1) - vars (7 * N - 1 + t)) ^ 2) :=
    Finset.sum_nonneg (fun t _ => by positivity)
  unfold costPlain
  constructor
  · intro h
    have h12 := (add_eq_zero_iff_of_nonneg (add_nonneg n1 n2) n3).mp h
    have h1 := (add_eq_zero_iff_of_nonneg n1 n2).mp h12.1
    have s1 := (Finset.sum_eq_zero_iff_of_nonneg (fun t _ => by positivity)).mp h1.1
    have s2 := (Finset.sum_eq_zero_iff_of_nonneg (fun t _ => by positivity)).mp h1.2
    constructor
    · intro t ht
      have e := s1 t (Finset.mem_range.mpr ht)
      have a1 : 0 ≤ (vars (4 * N + t)) ^ 2 := sq_nonneg _
      have a2 : 0 ≤ (vars (5 * N + t)) ^ 2 := sq_nonneg _
      have a3 : 0 ≤ (vars (3 * N + t) - 100) ^ 2 := sq_nonneg _
      have z1 : (vars (4 * N + t)) ^ 2 = 0 := by linarith
      have z2 : (vars (5 * N + t)) ^ 2 = 0 := by linarith
      have z3 : (vars (3 * N + t) - 100) ^ 2 = 0 := by linarith
      exact ⟨pow_eq_zero_iff (two_ne_zero) |>.mp z1, pow_eq_zero_iff (two_ne_zero) |>.mp z2,
        sub_eq_zero.mp (pow_eq_zero_iff (two_ne_zero) |>.mp z3)⟩
    · intro t ht
      have e := s2 t (Finset.mem_range.mpr ht)
      have a1 : 0 ≤ (vars (6 * N + t)) ^ 2 := sq_nonneg _
      have a2 : 0 ≤ (vars (7 * N - 1 + t)) ^ 2 := sq_nonneg _
      have z1 : (vars (6 * N + t)) ^ 2 = 0 := by linarith
      have z2 : (vars (7 * N - 1 + t)) ^ 2 = 0 := by linarith
      exact ⟨pow_eq_zero_iff (two_ne_zero) |>.mp z1, pow_eq_zero_iff (two_ne_zero) |>.mp z2⟩
  · rintro ⟨h1, h2⟩
    have s1 : ∑ t in Finset.range N, (2000 * (vars (4 * N + t)) ^ 2
        + 2000 * (vars (5 * N + t)) ^ 2 + (vars (3 * N + t) - 100) ^ 2) = 0 := by
      refine Finset.sum_eq_zero (fun t ht => ?_)
      obtain ⟨a, b, c⟩ := h1 t (Finset.mem_range.mp ht)
      rw [a, b, c]; norm_num
    have s2 : ∑ t in Finset.range (N - 1), (5 * (vars (6 * N + t)) ^ 2
        + 5 * (vars (7 * N - 1 + t)) ^ 2) = 0 := by
      refine Finset.sum_eq_zero (fun t ht => ?_)
      obtain ⟨a, b⟩ := h2 t (Finset.mem_range.mp ht)
      rw [a, b]; norm_num
    have s3 : ∑ t in Finset.range (N - 2),
        (200 * (vars (6 * N + t + 1) - vars (6 * N + t)) ^ 2
          + 10 * (vars (7 * N - 1 + t + 1) - vars (7 * N - 1 + t)) ^ 2) = 0 := by
      refine Finset.sum_eq_zero (fun t ht => ?_)
      have ht2 := Finset.mem_range.mp ht
      obtain ⟨a, b⟩ := h2 t (by omega)
      obtain ⟨a1, b1⟩ := h2 (t + 1) (by omega)
      rw [a, b, ← Nat.add_assoc] at *
      rw [a1, b1]; norm_num
    rw [s1, s2, s3]; norm_num

theorem rollout_const_v {F : Type} [Field F] (m : Cmath F) (coeffs : Nat → F) (delta dt : F)
    (s0 : State F) (k : Nat) :
    (rollout m coeffs (fun _ => delta) (fun _ => 0) dt s0 k).v = s0.v := by
  induction k with
  | zero => rfl
  | succ k ih => simp only [rollout, advance, ih, zero_mul, add_zero]

theorem rollout_const_psi {F : Type} [Field F] (m : Cmath F) (coeffs : Nat → F) (delta dt : F)
    (s0 : State F) (k : Nat) :
    (rollout m coeffs (fun _ => delta) (fun _ => 0) dt s0 k).psi
      = s0.psi - k * s0.v * delta * dt / Lf := by
  induction k with
  | zero => simp only [rollout, Nat.cast_zero, zero_mul, zero_div, sub_zero]
  | succ k ih =>
    have hv := rollout_const_v m coeffs delta dt s0 k
    simp only [rollout, advance, ih, hv, Nat.cast_succ]
    ring

theorem rollout_const_xy (coeffs : Nat → ℝ) (delta dt : ℝ) (s0 : State ℝ) (k : Nat) :
    (rollout (Cmath.mk Real.sin Real.cos Real.arctan) coeffs (fun _ => delta) (fun _ => 0) dt s0
        (k + 1)).x
      = (rollout (Cmath.mk Real.sin Real.cos Real.arctan) coeffs (fun _ => delta) (fun _ => 0)
          dt s0 k).x
        + s0.v * Real.cos (rollout (Cmath.mk Real.sin Real.cos Real.arctan) coeffs
          (fun _ => delta) (fun _ => 0) dt s0 k).psi * dt ∧
    (rollout (Cmath.mk Real.sin Real.cos Real.arctan) coeffs (fun _ => delta) (fun _ => 0) dt s0
        (k + 1)).y
      = (rollout (Cmath.mk Real.sin Real.cos Real.arctan) coeffs (fun _ => delta) (fun _ => 0)
          dt s0 k).y
        + s0.v * Real.sin (rollout (Cmath.mk Real.sin Real.cos Real.arctan) coeffs
          (fun _ => delta) (fun _ => 0) dt s0 k).psi * dt ∧
    (rollout (Cmath.mk Real.sin Real.cos Real.arctan) coeffs (fun _ => delta) (fun _ => 0) dt s0
        (k + 1)).psi
      = (rollout (Cmath.mk Real.sin Real.cos Real.arctan) coeffs (fun _ => delta) (fun _ => 0)
          dt s0 k).psi - s0.v * delta * dt / Lf := by
  have hv := rollout_const_v (Cmath.mk Real.sin Real.cos Real.arctan) coeffs delta dt s0 k
  refine ⟨?_, ?_, ?_⟩
  · simp only [rollout, advance]; rw [← hv]
  · simp only [rollout, advance]; rw [← hv]
  · simp only [rollout, advance]; rw [← hv]; ring

/-- Each value the residual loop stores is the step-`k + 1` variable minus the prediction. -/
theorem residualValue_eq {F : Type} [Field F] (m : Cmath F) (N : Nat) (coeffs vars : Nat → F)
    (k : Nat) (h1 : 1 ≤ N) (hfit : 8 * N < SIZE_MOD) :
    residualValue m N coeffs vars 0 k
      = (stateAt N vars (k + 1)).x - (predictedAt m N coeffs vars (k + 1)).x ∧
    residualValue m N coeffs vars 1 k
      = (stateAt N vars (k + 1)).y - (predictedAt m N coeffs vars (k + 1)).y ∧
    residualValue m N coeffs vars 2 k
      = (stateAt N vars (k + 1)).psi - (predictedAt m N coeffs vars (k + 1)).psi ∧
    residualValue m N coeffs vars 3 k
      = (stateAt N vars (k + 1)).v - (predictedAt m N coeffs vars (k + 1)).v ∧
    residualValue m N coeffs vars 4 k
      = (stateAt N vars (k + 1)).cte - (predictedAt m N coeffs vars (k + 1)).cte ∧
    residualValue m N coeffs vars 5 k
      = (stateAt N vars (k + 1)).epsi - (predictedAt m N coeffs vars (k + 1)).epsi := by
  obtain ⟨e1, e2, e3, e4, e5, e6, e7, -, -⟩ := offsets_of_fit N h1 hfit
  simp only [residualValue, stateAt, predictedAt, advance, e1, e2, e3, e4, e5, e6, e7, x_start,
    Nat.add_sub_cancel, Nat.zero_add, ← Nat.add_assoc, poly_arg, psides_arg, and_self]

/-- The prediction from step `t` is the compensator applied to the step-`t` variables. -/
theorem predictedAt_eq_compensate {F : Type} [Field F] (m : Cmath F) (N : Nat)
    (state coeffs vars : Nat → F) (steer_value throttle_value : F) (t : Nat)
    (h0 : vars (x_start + t) = state 0) (h1 : vars (y_start N + t) = state 1)
    (h2 : vars (psi_start N + t) = state 2) (h3 : vars (v_start N + t) = state 3)
    (h5 : vars (epsi_start N + t) = state 5) (hd : vars (delta_start N + t) = steer_value)
    (ha : vars (a_start N + t) = throttle_value) :
    predictedAt m N coeffs vars (t + 1) = compensate m state coeffs steer_value throttle_value := by
  simp only [predictedAt, advance, compensate, stateAt, Nat.add_sub_cancel, h0, h1, h2, h3, h5,
    hd, ha, dt, psides_arg, poly_arg]

theorem initialVars_spec {α : Type} [NatCast α] (N : Nat) (h1 : 1 ≤ N)
    (hfit : 8 * N < SIZE_MOD) :
    (initialVars N : Dvector α) = List.replicate (8 * N - 2) (some ((0 : Nat) : α)) := by
  obtain ⟨-, -, -, -, -, -, -, e8, -⟩ := offsets_of_fit N h1 hfit
  obtain ⟨l0, g0⟩ := forLoop_write 0 (8 * N - 2) ((0 : Nat) : α) (Dvector.alloc (8 * N - 2))
    (Nat.zero_le _)
  rw [alloc_length] at l0 g0
  simp only [initialVars, e8]
  refine List.ext_getElem? (fun j => ?_)
  rw [g0 j, List.getElem?_replicate, alloc_getElem?]
  by_cases hj : j < 8 * N - 2
  · rw [if_pos ⟨Nat.zero_le _, hj, hj⟩, if_pos hj]
  · rw [if_neg (fun h => hj h.2.1), if_neg hj, if_neg hj]

theorem constraintsHold_iff {K : Type} [LinearOrderedField K] (gl gu : Dvector K)
    (fg : List K) :
    constraintsHold gl gu fg = true ↔
      ∀ i, i < gl.length → ∃ lo hi g : K, gl[i]? = some (some lo) ∧ gu[i]? = some (some hi) ∧
        fg[1 + i]? = some g ∧ lo ≤ g ∧ g ≤ hi := by
  unfold constraintsHold
  rw [List.all_eq_true]
  constructor
  · intro h i hi
    have hh := h i (List.mem_range.mpr hi)
    split at hh
    · rename_i lo hi2 g h1 h2 h3
      rw [Bool.and_eq_true, decide_eq_true_eq, decide_eq_true_eq] at hh
      exact ⟨lo, hi2, g, h1, h2, h3, hh.1, hh.2⟩
    · exact absurd hh (by decide)
  · intro h i hi
    obtain ⟨lo, hi2, g, h1, h2, h3, hle⟩ := h i (List.mem_range.mp hi)
    rw [h1, h2, h3]
    exact Bool.and_eq_true_iff.mpr ⟨decide_eq_true hle.1, decide_eq_true hle.2⟩

/-- The variables follow the model step by step exactly when they are the rollout. -/
theorem stepwise_iff_rollout {F : Type} [Field F] (m : Cmath F) (N : Nat)
    (coeffs vars : Nat → F) (s0 : State F) (hN : 0 < N) :
    (stateAt N vars 0 = s0 ∧
      ∀ k, k + 1 < N → stateAt N vars (k + 1) = predictedAt m N coeffs vars (k + 1)) ↔
    ∀ t, t < N → stateAt N vars t
      = rollout m coeffs (fun t => vars (delta_start N + t)) (fun t => vars (a_start N + t)) dt
          s0 t := by
  constructor
  · rintro ⟨h0, hs⟩ t
    induction t with
    | zero => intro _; exact h0
    | succ k ih =>
      intro hk
      rw [hs k hk]
      simp only [predictedAt, rollout, Nat.add_sub_cancel]
      rw [ih (by omega)]
  · intro h
    refine ⟨h 0 hN, fun k hk => ?_⟩
    rw [h (k + 1) hk]
    simp only [predictedAt, rollout, Nat.add_sub_cancel]
    rw [h k (by omega)]

/-- The case analysis of a constraint index: the step-0 entry of a field, or a later step. -/
theorem constraint_index_cases (N i : Nat) (hi : i < 6 * N) :
    i = 0 ∨ i = N ∨ i = 2 * N ∨ i = 3 * N ∨ i = 4 * N ∨ i = 5 * N ∨
    (∃ k, k + 1 < N ∧ i = k + 1) ∨ (∃ k, k + 1 < N ∧ i = N + k + 1) ∨
    (∃ k, k + 1 < N ∧ i = 2 * N + k + 1) ∨ (∃ k, k + 1 < N ∧ i = 3 * N + k + 1) ∨
    (∃ k, k + 1 < N ∧ i = 4 * N + k + 1) ∨ (∃ k, k + 1 < N ∧ i = 5 * N + k + 1) := by
  by_cases a0 : i = 0
  · simp only [a0, true_or]
  by_cases a1 : i = N
  · simp only [a1, true_or, or_true]
  by_cases a2 : i = 2 * N
  · simp only [a2, true_or, or_true]
  by_cases a3 : i = 3 * N
  · simp only [a3, true_or, or_true]
  by_cases a4 : i = 4 * N
  · simp only [a4, true_or, or_true]
  by_cases a5 : i = 5 * N
  · simp only [a5, true_or, or_true]
  by_cases h1 : i < N
  · have w : ∃ k, k + 1 < N ∧ i = k + 1 := ⟨i - 1, by omega, by omega⟩
    simp only [w, true_or, or_true]
  by_cases h2 : i < 2 * N
  · have w : ∃ k, k + 1 < N ∧ i = N + k + 1 := ⟨i - N - 1, by omega, by omega⟩
    simp only [w, true_or, or_true]
  by_cases h3 : i < 3 * N
  · have w : ∃ k, k + 1 < N ∧ i = 2 * N + k + 1 := ⟨i - 2 * N - 1, by omega, by omega⟩
    simp only [w, true_or, or_true]
  by_cases h4 : i < 4 * N
  · have w : ∃ k, k + 1 < N ∧ i = 3 * N + k + 1 := ⟨i - 3 * N - 1, by omega, by omega⟩
    simp only [w, true_or, or_true]
  by_cases h5 : i < 5 * N
  · have w : ∃ k, k + 1 < N ∧ i = 4 * N + k + 1 := ⟨i - 4 * N - 1, by omega, by omega⟩
    simp only [w, true_or, or_true]
  · have w : ∃ k, k + 1 < N ∧ i = 5 * N + k + 1 := ⟨i - 5 * N - 1, by omega, by omega⟩
    simp only [w, or_true]

/-- Feasibility of the constraints, field by field: step 0 is pinned to `s0`, and each later
step equals the prediction from the step before. -/
theorem feasible_iff_stepwise {K : Type} [LinearOrderedField K] (m : Cmath K) (N : Nat)
    (coeffs vars : Nat → K) (fg : List K) (s0 : State K) (hN : 2 ≤ N)
    (hfit : 8 * N < SIZE_MOD) (hfg : fg.length = 1 + 6 * N) :
    constraintsHold (constraintsBound N s0) (constraintsBound N s0)
        (FG_eval.eval (FG_eval.mk coeffs) m N fg vars) = true ↔
      (stateAt N vars 0 = s0 ∧
        ∀ k, k + 1 < N → stateAt N vars (k + 1) = predictedAt m N coeffs vars (k + 1)) := by
  obtain ⟨e1, e2, e3, e4, e5, -, -, -, -⟩ := offsets_of_fit N (by omega) hfit
  obtain ⟨-, -, ⟨f0, f1, f2, f3, f4, f5⟩, hres⟩ := FG_eval_spec m N coeffs vars fg hN hfit hfg
  obtain ⟨bl, b0, b1, b2, b3, b4, b5, brest⟩ := constraintsBound_spec N s0 (by omega) hfit
  have hst0 : stateAt N vars 0 = State.mk (vars 0) (vars N) (vars (2 * N)) (vars (3 * N))
      (vars (4 * N)) (vars (5 * N)) := by
    simp only [stateAt, e1, e2, e3, e4, e5, x_start, Nat.add_zero]
  have hstk : ∀ k, stateAt N vars (k + 1) = State.mk (vars (k + 1)) (vars (N + k + 1))
      (vars (2 * N + k + 1)) (vars (3 * N + k + 1)) (vars (4 * N + k + 1))
      (vars (5 * N + k + 1)) := by
    intro k
    simp only [stateAt, e1, e2, e3, e4, e5, x_start, Nat.zero_add, ← Nat.add_assoc]
  have hz : ((0 : Nat) : K) = 0 := Nat.cast_zero
  constructor
  · intro h
    constructor
    · have h0 := constraintsHold_at _ _ _ h 0 _ _ _ (by omega) b0 b0 f0
      have h1 := constraintsHold_at _ _ _ h N _ _ _ (by omega) b1 b1 f1
      have h2 := constraintsHold_at _ _ _ h (2 * N) _ _ _ (by omega) b2 b2 f2
      have h3 := constraintsHold_at _ _ _ h (3 * N) _ _ _ (by omega) b3 b3 f3
      have h4 := constraintsHold_at _ _ _ h (4 * N) _ _ _ (by omega) b4 b4 f4
      have h5 := constraintsHold_at _ _ _ h (5 * N) _ _ _ (by omega) b5 b5 f5
      rw [hst0, le_antisymm h0.2 h0.1, le_antisymm h1.2 h1.1, le_antisymm h2.2 h2.1,
        le_antisymm h3.2 h3.1, le_antisymm h4.2 h4.1, le_antisymm h5.2 h5.1]
    · intro k hk
      obtain ⟨r0, r1, r2, r3, r4, r5⟩ := hres k hk
      obtain ⟨v0, v1, v2, v3, v4, v5⟩ := residualValue_eq m N coeffs vars k (by omega) hfit
      have i0 : 1 + (k + 1) = 2 + k := by omega
      have i1 : 1 + (N + k + 1) = 2 + N + k := by omega
      have i2 : 1 + (2 * N + k + 1) = 2 + 2 * N + k := by omega
      have i3 : 1 + (3 * N + k + 1) = 2 + 3 * N + k := by omega
      have i4 : 1 + (4 * N + k + 1) = 2 + 4 * N + k := by omega
      have i5 : 1 + (5 * N + k + 1) = 2 + 5 * N + k := by omega
      have z0 := brest (k + 1) (by omega) (by omega) (by omega) (by omega) (by omega)
        (by omega) (by omega)
      have z1 := brest (N + k + 1) (by omega) (by omega) (by omega) (by omega) (by omega)
        (by omega) (by omega)
      have z2 := brest (2 * N + k + 1) (by omega) (by omega) (by omega) (by omega) (by omega)
        (by omega) (by omega)
      have z3 := brest (3 * N + k + 1) (by omega) (by omega) (by omega) (by omega) (by omega)
        (by omega) (by omega)
      have z4 := brest (4 * N + k + 1) (by omega) (by omega) (by omega) (by omega) (by omega)
        (by omega) (by omega)
      have z5 := brest (5 * N + k + 1) (by omega) (by omega) (by omega) (by omega) (by omega)
        (by omega) (by omega)
      have h0 := constraintsHold_at _ _ _ h (k + 1) _ _ _ (by omega) z0 z0 (by rw [i0]; exact r0)
      have h1 := constraintsHold_at _ _ _ h (N + k + 1) _ _ _ (by omega) z1 z1
        (by rw [i1]; exact r1)
      have h2 := constraintsHold_at _ _ _ h (2 * N + k + 1) _ _ _ (by omega) z2 z2
        (by rw [i2]; exact r2)
      have h3 := constraintsHold_at _ _ _ h (3 * N + k + 1) _ _ _ (by omega) z3 z3
        (by rw [i3]; exact r3)
      have h4 := constraintsHold_at _ _ _ h (4 * N + k + 1) _ _ _ (by omega) z4 z4
        (by rw [i4]; exact r4)
      have h5 := constraintsHold_at _ _ _ h (5 * N + k + 1) _ _ _ (by omega) z5 z5
        (by rw [i5]; exact r5)
      rw [hz] at h0 h1 h2 h3 h4 h5
      have g0 := sub_eq_zero.mp (v0.symm.trans (le_antisymm h0.2 h0.1))
      have g1 := sub_eq_zero.mp (v1.symm.trans (le_antisymm h1.2 h1.1))
      have g2 := sub_eq_zero.mp (v2.symm.trans (le_antisymm h2.2 h2.1))
      have g3 := sub_eq_zero.mp (v3.symm.trans (le_antisymm h3.2 h3.1))
      have g4 := sub_eq_zero.mp (v4.symm.trans (le_antisymm h4.2 h4.1))
      have g5 := sub_eq_zero.mp (v5.symm.trans (le_antisymm h5.2 h5.1))
      cases hs : stateAt N vars (k + 1)
      cases hp : predictedAt m N coeffs vars (k + 1)
      simp only [hs, hp] at g0 g1 g2 g3 g4 g5
      simp only [State.mk.injEq]
      exact ⟨g0, g1, g2, g3, g4, g5⟩
  · rintro ⟨hinit, hstep⟩
    rw [hst0] at hinit
    rw [constraintsHold_iff, bl]
    intro i hi
    have hzero : ∀ k, k + 1 < N →
        residualValue m N coeffs vars 0 k = 0 ∧ residualValue m N coeffs vars 1 k = 0 ∧
        residualValue m N coeffs vars 2 k = 0 ∧ residualValue m N coeffs vars 3 k = 0 ∧
        residualValue m N coeffs vars 4 k = 0 ∧ residualValue m N coeffs vars 5 k = 0 := by
      intro k hk
      obtain ⟨v0, v1, v2, v3, v4, v5⟩ := residualValue_eq m N coeffs vars k (by omega) hfit
      rw [v0, v1, v2, v3, v4, v5, hstep k hk]
      simp only [sub_self, and_self]
    rcases constraint_index_cases N i hi with h | h | h | h | h | h | ⟨k, hk, h⟩ | ⟨k, hk, h⟩ |
      ⟨k, hk, h⟩ | ⟨k, hk, h⟩ | ⟨k, hk, h⟩ | ⟨k, hk, h⟩ <;> subst h
    · exact ⟨_, _, _, b0, b0, f0, le_of_eq (congrArg State.x hinit).symm,
        le_of_eq (congrArg State.x hinit)⟩
    · exact ⟨_, _, _, b1, b1, f1, le_of_eq (congrArg State.y hinit).symm,
        le_of_eq (congrArg State.y hinit)⟩
    · exact ⟨_, _, _, b2, b2, f2, le_of_eq (congrArg State.psi hinit).symm,
        le_of_eq (congrArg State.psi hinit)⟩
    · exact ⟨_, _, _, b3, b3, f3, le_of_eq (congrArg State.v hinit).symm,
        le_of_eq (congrArg State.v hinit)⟩
    · exact ⟨_, _, _, b4, b4, f4, le_of_eq (congrArg State.cte hinit).symm,
        le_of_eq (congrArg State.cte hinit)⟩
    · exact ⟨_, _, _, b5, b5, f5, le_of_eq (congrArg State.epsi hinit).symm,
        le_of_eq (congrArg State.epsi hinit)⟩
    · have z := brest (k + 1) (by omega) (by omega) (by omega) (by omega) (by omega)
        (by omega) (by omega)
      have r := (hres k hk).1
      rw [(hzero k hk).1, ← hz] at r
      exact ⟨_, _, _, z, z, by rw [show 1 + (k + 1) = 2 + k by omega]; exact r, le_refl _,
        le_refl _⟩
    · have z := brest (N + k + 1) (by omega) (by omega) (by omega) (by omega) (by omega)
        (by omega) (by omega)
      have r := (hres k hk).2.1
      rw [(hzero k hk).2.1, ← hz] at r
      exact ⟨_, _, _, z, z, by rw [show 1 + (N + k + 1) = 2 + N + k by omega]; exact r,
        le_refl _, le_refl _⟩
    · have z := brest (2 * N + k + 1) (by omega) (by omega) (by omega) (by omega) (by omega)
        (by omega) (by omega)
      have r := (hres k hk).2.2.1
      rw [(hzero k hk).2.2.1, ← hz] at r
      exact ⟨_, _, _, z, z, by rw [show 1 + (2 * N + k + 1) = 2 + 2 * N + k by omega]; exact r,
        le_refl _, le_refl _⟩
    · have z := brest (3 * N + k + 1) (by omega) (by omega) (by omega) (by omega) (by omega)
        (by omega) (by omega)
      have r := (hres k hk).2.2.2.1
      rw [(hzero k hk).2.2.2.1, ← hz] at r
      exact ⟨_, _, _, z, z, by rw [show 1 + (3 * N + k + 1) = 2 + 3 * N + k by omega]; exact r,
        le_refl _, le_refl _⟩
    · have z := brest (4 * N + k + 1) (by omega) (by omega) (by omega) (by omega) (by omega)
        (by omega) (by omega)
      have r := (hres k hk).2.2.2.2.1
      rw [(hzero k hk).2.2.2.2.1, ← hz] at r
      exact ⟨_, _, _, z, z, by rw [show 1 + (4 * N + k + 1) = 2 + 4 * N + k by omega]; exact r,
        le_refl _, le_refl _⟩
    · have z := brest (5 * N + k + 1) (by omega) (by omega) (by omega) (by omega) (by omega)
        (by omega) (by omega)
      have r := (hres k hk).2.2.2.2.2
      rw [(hzero k hk).2.2.2.2.2, ← hz] at r
      exact ⟨_, _, _, z, z, by rw [show 1 + (5 * N + k + 1) = 2 + 5 * N + k by omega]; exact r,
        le_refl _, le_refl _⟩

theorem rollout_congr {F : Type} [Field F] (m : Cmath F) (coeffs : Nat → F)
    (delta a delta2 a2 : Nat → F) (d : F) (s0 : State F) (k : Nat)
    (h : ∀ t, t < k → delta t = delta2 t ∧ a t = a2 t) :
    rollout m coeffs delta a d s0 k = rollout m coeffs delta2 a2 d s0 k := by
  induction k with
  | zero => rfl
  | succ k ih =>
    simp only [rollout]
    rw [ih (fun t ht => h t (by omega)), (h k (Nat.lt_succ_self k)).1,
      (h k (Nat.lt_succ_self k)).2]

theorem assemble_spec {α : Type} (N : Nat) (s : Nat → State α) (delta a : Nat → α)
    (h1 : 1 ≤ N) (hfit : 8 * N < SIZE_MOD) :
    (∀ t, t < N → stateAt N (assemble N s delta a) t = s t) ∧
    (∀ t, t < N - 1 → assemble N s delta a (delta_start N + t) = delta t ∧
      assemble N s delta a (a_start N + t) = a t) := by
  obtain ⟨e1, e2, e3, e4, e5, e6, e7, -, -⟩ := offsets_of_fit N h1 hfit
  constructor
  · intro t ht
    have c0 : t < N := ht
    have c1 : ¬ N + t < N := by omega
    have c1b : N + t < 2 * N := by omega
    have c2 : ¬ 2 * N + t < N := by omega
    have c2a : ¬ 2 * N + t < 2 * N := by omega
    have c2b : 2 * N + t < 3 * N := by omega
    have c3 : ¬ 3 * N + t < N := by omega
    have c3a : ¬ 3 * N + t < 2 * N := by omega
    have c3b : ¬ 3 * N + t < 3 * N := by omega
    have c3c : 3 * N + t < 4 * N := by omega
    have c4 : ¬ 4 * N + t < N := by omega
    have c4a : ¬ 4 * N + t < 2 * N := by omega
    have c4b : ¬ 4 * N + t < 3 * N := by omega
    have c4c : ¬ 4 * N + t < 4 * N := by omega
    have c4d : 4 * N + t < 5 * N := by omega
    have c5 : ¬ 5 * N + t < N := by omega
    have c5a : ¬ 5 * N + t < 2 * N := by omega
    have c5b : ¬ 5 * N + t < 3 * N := by omega
    have c5c : ¬ 5 * N + t < 4 * N := by omega
    have c5d : ¬ 5 * N + t < 5 * N := by omega
    have c5e : 5 * N + t < 6 * N := by omega
    simp only [stateAt, assemble, e1, e2, e3, e4, e5, e6, e7, x_start, Nat.zero_add,
      Nat.sub_zero, Nat.add_sub_cancel_left, c0, c1, c1b, c2, c2a, c2b, c3, c3a, c3b, c3c, c4,
      c4a, c4b, c4c, c4d, c5, c5a, c5b, c5c, c5d, c5e, if_true, if_false]
  · intro t ht
    have d0 : ¬ 6 * N + t < N := by omega
    have d1 : ¬ 6 * N + t < 2 * N := by omega
    have d2 : ¬ 6 * N + t < 3 * N := by omega
    have d3 : ¬ 6 * N + t < 4 * N := by omega
    have d4 : ¬ 6 * N + t < 5 * N := by omega
    have d5 : ¬ 6 * N + t < 6 * N := by omega
    have d6 : 6 * N + t < 7 * N - 1 := by omega
    have a0 : ¬ 7 * N - 1 + t < N := by omega
    have a1 : ¬ 7 * N - 1 + t < 2 * N := by omega
    have a2 : ¬ 7 * N - 1 + t < 3 * N := by omega
    have a3 : ¬ 7 * N - 1 + t < 4 * N := by omega
    have a4 : ¬ 7 * N - 1 + t < 5 * N := by omega
    have a5 : ¬ 7 * N - 1 + t < 6 * N := by omega
    have a6 : ¬ 7 * N - 1 + t < 7 * N - 1 := by omega
    simp only [assemble, e1, e2, e3, e4, e5, e6, e7, Nat.add_sub_cancel_left, d0, d1, d2, d3,
      d4, d5, d6, a0, a1, a2, a3, a4, a5, a6, if_true, if_false, and_self]

/-- The constraint bounds of two states that agree except in `cte` agree except at index
`cte_start`. -/
theorem constraintsBound_congr_except_cte {α : Type} [NatCast α] (N : Nat) (s s2 : State α)
    (hx : s.x = s2.x) (hy : s.y = s2.y) (hpsi : s.psi = s2.psi) (hv : s.v = s2.v)
    (hepsi : s.epsi = s2.epsi) (j : Nat) (hj : j ≠ cte_start N) :
    (constraintsBound N s)[j]? = (constraintsBound N s2)[j]? := by
  simp only [constraintsBound, Dvector.write, hx, hy, hpsi, hv, hepsi]
  by_cases he : epsi_start N = j
  · subst he
    simp only [List.getElem?_set, List.length_set, if_true]
  · rw [List.getElem?_set_ne he, List.getElem?_set_ne he, List.getElem?_set_ne (Ne.symm hj),
      List.getElem?_set_ne (Ne.symm hj)]

/-- The compensator of `Solve` is one step of `advance` with step 0.1. -/
theorem advance_eq_compensate {F : Type} [Field F] (m : Cmath F) (coeffs : Nat → F)
    (s : State F) (delta a : F) :
    advance m coeffs s delta a 0.1 = compensate m s.vec coeffs delta a := by
  simp only [advance, compensate, State.vec, psides_arg, poly_arg]

/-! ## The claims -/

/-- C1: the latency compensation in `Solve` is one step of the bicycle model with delay 0.1:
each of the six compensated fields is given by the stated formula in the raw state, the cubic
coefficients and the previous actuation, with `Lf = 2.67`, and the steering term is subtracted
from the heading; the whole compensated state is `advance` applied once to the raw state. -/
theorem C1_latency_compensation {F : Type} [Field F] (m : Cmath F) (state coeffs : Nat → F)
    (steer_value throttle_value : F) :
    (compensate m state coeffs steer_value throttle_value).x
      = state 0 + state 3 * m.cos (state 2) * 0.1 ∧
    (compensate m state coeffs steer_value throttle_value).y
      = state 1 + state 3 * m.sin (state 2) * 0.1 ∧
    (compensate m state coeffs steer_value throttle_value).psi
      = state 2 - state 3 * steer_value / 2.67 * 0.1 ∧
    (compensate m state coeffs steer_value throttle_value).v
      = state 3 + throttle_value * 0.1 ∧
    (compensate m state coeffs steer_value throttle_value).cte
      = ((coeffs 0 + coeffs 1 * state 0 + coeffs 2 * state 0 ^ 2 + coeffs 3 * state 0 ^ 3)
          - state 1) + state 3 * m.sin (state 5) * 0.1 ∧
    (compensate m state coeffs steer_value throttle_value).epsi
      = (state 2 - m.atan (coeffs 1 + 2 * coeffs 2 * state 0 + 3 * coeffs 3 * state 0 ^ 2))
          - state 3 * steer_value / 2.67 * 0.1 ∧
    compensate m state coeffs steer_value throttle_value
      = advance m coeffs
          { x := state 0, y := state 1, psi := state 2, v := state 3, cte := state 4,
            epsi := state 5 } steer_value throttle_value 0.1 := by
  simp only [compensate, advance, Lf, psides_arg, poly_arg, and_self]

/-- C2: for every variable vector and every step `t` with `1 ≤ t ≤ N - 1`, the constraint
entry `fg[1 + field_start + t]` of each of the six fields is the step-`t` variable of that
field minus the model's prediction from the state and actuation variables of step `t - 1`
with `dt = 0.1`; the six residuals of step `t` are all zero exactly when the step-`t` state
equals that prediction.  `N` is a horizon of at least 2 whose vector sizes fit `size_t`, and
`fg` has the size `1 + n_constraints` the solver gives it. -/
theorem C2_dynamics_residuals {F : Type} [Field F] (m : Cmath F) (N : Nat)
    (coeffs vars : Nat → F) (fg : List F)
    (t : Nat) (hN : 2 ≤ N) (hfit : 8 * N < SIZE_MOD) (hfg : fg.length = 1 + n_constraints N)
    (ht1 : 1 ≤ t) (htN : t ≤ N - 1) :
    (dt : F) = 0.1 ∧
    (FG_eval.eval (FG_eval.mk coeffs) m N fg vars)[1 + x_start + t]?
      = some ((stateAt N vars t).x - (predictedAt m N coeffs vars t).x) ∧
    (FG_eval.eval (FG_eval.mk coeffs) m N fg vars)[1 + y_start N + t]?
      = some ((stateAt N vars t).y - (predictedAt m N coeffs vars t).y) ∧
    (FG_eval.eval (FG_eval.mk coeffs) m N fg vars)[1 + psi_start N + t]?
      = some ((stateAt N vars t).psi - (predictedAt m N coeffs vars t).psi) ∧
    (FG_eval.eval (FG_eval.mk coeffs) m N fg vars)[1 + v_start N + t]?
      = some ((stateAt N vars t).v - (predictedAt m N coeffs vars t).v) ∧
    (FG_eval.eval (FG_eval.mk coeffs) m N fg vars)[1 + cte_start N + t]?
      = some ((stateAt N vars t).cte - (predictedAt m N coeffs vars t).cte) ∧
    (FG_eval.eval (FG_eval.mk coeffs) m N fg vars)[1 + epsi_start N + t]?
      = some ((stateAt N vars t).epsi - (predictedAt m N coeffs vars t).epsi) ∧
    (((FG_eval.eval (FG_eval.mk coeffs) m N fg vars)[1 + x_start + t]? = some 0 ∧
      (FG_eval.eval (FG_eval.mk coeffs) m N fg vars)[1 + y_start N + t]? = some 0 ∧
      (FG_eval.eval (FG_eval.mk coeffs) m N fg vars)[1 + psi_start N + t]? = some 0 ∧
      (FG_eval.eval (FG_eval.mk coeffs) m N fg vars)[1 + v_start N + t]? = some 0 ∧
      (FG_eval.eval (FG_eval.mk coeffs) m N fg vars)[1 + cte_start N + t]? = some 0 ∧
      (FG_eval.eval (FG_eval.mk coeffs) m N fg vars)[1 + epsi_start N + t]? = some 0) ↔
      stateAt N vars t = predictedAt m N coeffs vars t) := by
  obtain ⟨k, rfl⟩ : ∃ k, t = k + 1 := ⟨t - 1, by omega⟩
  obtain ⟨e1, e2, e3, e4, e5, e6, e7, -, e9⟩ := offsets_of_fit N (by omega) hfit
  rw [e9] at hfg
  obtain ⟨-, -, -, hres⟩ := FG_eval_spec m N coeffs vars fg hN hfit hfg
  obtain ⟨r0, r1, r2, r3, r4, r5⟩ := hres k (by omega)
  have i0 : 1 + x_start + (k + 1) = 2 + k := by simp only [x_start]; omega
  have i1 : 1 + N + (k + 1) = 2 + N + k := by omega
  have i2 : 1 + 2 * N + (k + 1) = 2 + 2 * N + k := by omega
  have i3 : 1 + 3 * N + (k + 1) = 2 + 3 * N + k := by omega
  have i4 : 1 + 4 * N + (k + 1) = 2 + 4 * N + k := by omega
  have i5 : 1 + 5 * N + (k + 1) = 2 + 5 * N + k := by omega
  simp only [e1, e2, e3, e4, e5, i0, i1, i2, i3, i4, i5, r0, r1, r2, r3, r4, r5]
  have v0 : residualValue m N coeffs vars 0 k
      = (stateAt N vars (k + 1)).x - (predictedAt m N coeffs vars (k + 1)).x := by
    simp only [residualValue, stateAt, predictedAt, advance, e1, e2, e3, e4, e5, e6, e7, x_start,
      Nat.add_sub_cancel, Nat.zero_add, ← Nat.add_assoc]
  have v1 : residualValue m N coeffs vars 1 k
      = (stateAt N vars (k + 1)).y - (predictedAt m N coeffs vars (k + 1)).y := by
    simp only [residualValue, stateAt, predictedAt, advance, e1, e2, e3, e4, e5, e6, e7, x_start,
      Nat.add_sub_cancel, Nat.zero_add, ← Nat.add_assoc]
  have v2 : residualValue m N coeffs vars 2 k
      = (stateAt N vars (k + 1)).psi - (predictedAt m N coeffs vars (k + 1)).psi := by
    simp only [residualValue, stateAt, predictedAt, advance, e1, e2, e3, e4, e5, e6, e7, x_start,
      Nat.add_sub_cancel, Nat.zero_add, ← Nat.add_assoc]
  have v3 : residualValue m N coeffs vars 3 k
      = (stateAt N vars (k + 1)).v - (predictedAt m N coeffs vars (k + 1)).v := by
    simp only [residualValue, stateAt, predictedAt, advance, e1, e2, e3, e4, e5, e6, e7, x_start,
      Nat.add_sub_cancel, Nat.zero_add, ← Nat.add_assoc]
  have v4 : residualValue m N coeffs vars 4 k
      = (stateAt N vars (k + 1)).cte - (predictedAt m N coeffs vars (k + 1)).cte := by
    simp only [residualValue, stateAt, predictedAt, advance, e1, e2, e3, e4, e5, e6, e7, x_start,
      Nat.add_sub_cancel, Nat.zero_add, ← Nat.add_assoc, poly_arg]
  have v5 : residualValue m N coeffs vars 5 k
      = (stateAt N vars (k + 1)).epsi - (predictedAt m N coeffs vars (k + 1)).epsi := by
    simp only [residualValue, stateAt, predictedAt, advance, e1, e2, e3, e4, e5, e6, e7, x_start,
      Nat.add_sub_cancel, Nat.zero_add, ← Nat.add_assoc, psides_arg]
  refine ⟨rfl, congrArg some v0, congrArg some v1, congrArg some v2, congrArg some v3,
    congrArg some v4, congrArg some v5, ?_⟩
  rw [v0, v1, v2, v3, v4, v5]
  simp only [Option.some.injEq, sub_eq_zero]
  constructor
  · rintro ⟨h0, h1, h2, h3, h4, h5⟩
    cases hs : stateAt N vars (k + 1)
    cases hp : predictedAt m N coeffs vars (k + 1)
    simp only [hs, hp] at h0 h1 h2 h3 h4 h5
    simp only [State.mk.injEq]
    exact ⟨h0, h1, h2, h3, h4, h5⟩
  · intro h
    rw [h]
    exact ⟨rfl, rfl, rfl, rfl, rfl, rfl⟩

/-- C3: the step-0 constraints pin the first state to the compensated state.  For each of
the six fields the entry `FG_eval` writes at `fg[1 + field_start]` is the variable
`vars[field_start]` itself; in the problem `Solve` hands to the solver the lower and the upper
constraint bounds coincide, have `6N` entries, hold the compensated value of the field at
index `field_start` and 0 at every other index; hence a variable vector whose constraint
values lie within the bounds has its step-0 state equal to the compensated state. -/
theorem C3_initial_state_pinned {K : Type} [LinearOrderedField K] (m : Cmath K)
    (solver : Problem K → solve_result K) (N : Nat)
    (state coeffs vars : Nat → K) (steer_value throttle_value : K) (fg : List K)
    (p : Problem K) (hN : 2 ≤ N) (hfit : 8 * N < SIZE_MOD)
    (hfg : fg.length = 1 + n_constraints N)
    (hp : p ∈ (Solve m solver N state coeffs steer_value throttle_value).calls) :
    ((FG_eval.eval p.fg_eval m N fg vars)[1 + x_start]? = some (vars x_start) ∧
      (FG_eval.eval p.fg_eval m N fg vars)[1 + y_start N]? = some (vars (y_start N)) ∧
      (FG_eval.eval p.fg_eval m N fg vars)[1 + psi_start N]? = some (vars (psi_start N)) ∧
      (FG_eval.eval p.fg_eval m N fg vars)[1 + v_start N]? = some (vars (v_start N)) ∧
      (FG_eval.eval p.fg_eval m N fg vars)[1 + cte_start N]? = some (vars (cte_start N)) ∧
      (FG_eval.eval p.fg_eval m N fg vars)[1 + epsi_start N]? = some (vars (epsi_start N))) ∧
    (p.gl.length = 6 * N ∧ p.gu = p.gl ∧
      p.gl[x_start]? = some (some (compensate m state coeffs steer_value throttle_value).x) ∧
      p.gl[y_start N]? = some (some (compensate m state coeffs steer_value throttle_value).y) ∧
      p.gl[psi_start N]? =
        some (some (compensate m state coeffs steer_value throttle_value).psi) ∧
      p.gl[v_start N]? = some (some (compensate m state coeffs steer_value throttle_value).v) ∧
      p.gl[cte_start N]? =
        some (some (compensate m state coeffs steer_value throttle_value).cte) ∧
      p.gl[epsi_start N]? =
        some (some (compensate m state coeffs steer_value throttle_value).epsi) ∧
      ∀ i, i < 6 * N → i ≠ x_start → i ≠ y_start N → i ≠ psi_start N → i ≠ v_start N →
        i ≠ cte_start N → i ≠ epsi_start N → p.gl[i]? = some (some 0)) ∧
    (constraintsHold p.gl p.gu (FG_eval.eval p.fg_eval m N fg vars) = true →
      stateAt N vars 0 = compensate m state coeffs steer_value throttle_value) := by
  obtain ⟨e1, e2, e3, e4, e5, -, -, -, e9⟩ := offsets_of_fit N (by omega) hfit
  rw [e9] at hfg
  have hpe : p = buildProblem m N state coeffs steer_value throttle_value := by
    simpa [Solve] using hp
  subst hpe
  obtain ⟨-, -, ⟨f0, f1, f2, f3, f4, f5⟩, -⟩ := FG_eval_spec m N coeffs vars fg hN hfit hfg
  obtain ⟨bl, b0, b1, b2, b3, b4, b5, brest⟩ :=
    constraintsBound_spec N (compensate m state coeffs steer_value throttle_value)
      (by omega) hfit
  simp only [buildProblem, e1, e2, e3, e4, e5, x_start, Nat.add_zero]
  refine ⟨⟨f0, f1, f2, f3, f4, f5⟩, ⟨bl, trivial, b0, b1, b2, b3, b4, b5, ?_⟩, ?_⟩
  · intro i hi n0 n1 n2 n3 n4 n5
    rw [brest i hi n0 n1 n2 n3 n4 n5, Nat.cast_zero]
  · intro h
    have h0 := constraintsHold_at _ _ _ h 0 _ _ _ (by omega) b0 b0 f0
    have h1 := constraintsHold_at _ _ _ h N _ _ _ (by omega) b1 b1 f1
    have h2 := constraintsHold_at _ _ _ h (2 * N) _ _ _ (by omega) b2 b2 f2
    have h3 := constraintsHold_at _ _ _ h (3 * N) _ _ _ (by omega) b3 b3 f3
    have h4 := constraintsHold_at _ _ _ h (4 * N) _ _ _ (by omega) b4 b4 f4
    have h5 := constraintsHold_at _ _ _ h (5 * N) _ _ _ (by omega) b5 b5 f5
    have g0 := le_antisymm h0.2 h0.1
    have g1 := le_antisymm h1.2 h1.1
    have g2 := le_antisymm h2.2 h2.1
    have g3 := le_antisymm h3.2 h3.1
    have g4 := le_antisymm h4.2 h4.1
    have g5 := le_antisymm h5.2 h5.1
    simp only [stateAt, e1, e2, e3, e4, e5, x_start, Nat.add_zero, Nat.zero_add, g0, g1, g2,
      g3, g4, g5]

/-- C4: for every `N ≥ 2` (with sizes that fit `size_t`) the start offsets split
`[0, 6N + 2(N-1))` into eight contiguous blocks in the order x, y, psi, v, cte, epsi, delta, a:
each block starts where the previous one ends, the first six have width `N`, the last two
width `N - 1`, and an index is below `n_vars` exactly when it lies in one of the blocks; so
`n_vars = a_start + (N - 1) = 6N + 2(N-1)` and `n_constraints = delta_start = 6N`; for
`N = 10` these are 78 and 60. -/
theorem C4_layout (N : Nat) (hN : 2 ≤ N) (hfit : 8 * N < SIZE_MOD) :
    x_start = 0 ∧ y_start N = x_start + N ∧ psi_start N = y_start N + N ∧
    v_start N = psi_start N + N ∧ cte_start N = v_start N + N ∧
    epsi_start N = cte_start N + N ∧ delta_start N = epsi_start N + N ∧
    a_start N = delta_start N + (N - 1) ∧ n_vars N = a_start N + (N - 1) ∧
    n_vars N = 6 * N + 2 * (N - 1) ∧ n_constraints N = delta_start N ∧
    n_constraints N = 6 * N ∧
    (∀ i, i < n_vars N ↔
      (x_start ≤ i ∧ i < x_start + N) ∨ (y_start N ≤ i ∧ i < y_start N + N) ∨
      (psi_start N ≤ i ∧ i < psi_start N + N) ∨ (v_start N ≤ i ∧ i < v_start N + N) ∨
      (cte_start N ≤ i ∧ i < cte_start N + N) ∨ (epsi_start N ≤ i ∧ i < epsi_start N + N) ∨
      (delta_start N ≤ i ∧ i < delta_start N + (N - 1)) ∨
      (a_start N ≤ i ∧ i < a_start N + (N - 1))) ∧
    n_vars 10 = 78 ∧ n_constraints 10 = 60 := by
  obtain ⟨e1, e2, e3, e4, e5, e6, e7, e8, e9⟩ := offsets_of_fit N (by omega) hfit
  simp only [e1, e2, e3, e4, e5, e6, e7, e8, e9, x_start]
  refine ⟨trivial, by omega, by omega, by omega, by omega, by omega, by omega, by omega, by omega,
    by omega, trivial, trivial, fun i => by omega, by decide, by decide⟩

/-- C5: for every variable vector, the cost left in `fg[0]` is the sum over the `N` steps of
`2000 cte² + 2000 epsi² + (v - 100)²`, plus the sum over the `N - 1` actuation steps of
`5 delta² + 5 a²`, plus the sum over the `N - 2` consecutive pairs of
`200 (delta' - delta)² + 10 (a' - a)²`, and nothing else. -/
theorem C5_cost {F : Type} [Field F] (m : Cmath F) (N : Nat) (coeffs vars : Nat → F)
    (fg : List F)
    (hN : 2 ≤ N) (hfit : 8 * N < SIZE_MOD) (hfg : fg.length = 1 + n_constraints N) :
    (FG_eval.eval (FG_eval.mk coeffs) m N fg vars)[0]? =
      some (∑ t in Finset.range N, (2000 * (vars (cte_start N + t)) ^ 2
          + 2000 * (vars (epsi_start N + t)) ^ 2 + (vars (v_start N + t) - 100) ^ 2)
        + ∑ t in Finset.range (N - 1), (5 * (vars (delta_start N + t)) ^ 2
          + 5 * (vars (a_start N + t)) ^ 2)
        + ∑ t in Finset.range (N - 2),
          (200 * (vars (delta_start N + (t + 1)) - vars (delta_start N + t)) ^ 2
            + 10 * (vars (a_start N + (t + 1)) - vars (a_start N + t)) ^ 2)) := by
  obtain ⟨-, -, e3, e4, e5, e6, e7, -, e9⟩ := offsets_of_fit N (by omega) hfit
  rw [e9] at hfg
  rw [(FG_eval_spec m N coeffs vars fg hN hfit hfg).2.1, costPlain, e3, e4, e5, e6, e7]
  simp only [← Nat.add_assoc]

/-- C6: in the problem `Solve` hands to the solver, both variable-bound vectors have
`6N + 2(N-1)` entries; every state variable (index below `delta_start`) has bounds
`[-1.0e19, 1.0e19]`, every steering variable (`delta_start ≤ i < a_start`) has bounds
`[-0.436332 Lf, 0.436332 Lf]`, every acceleration variable (`a_start ≤ i < n_vars`) has bounds
`[-1, 1]`; every index has both bounds set, with lower below upper. -/
theorem C6_variable_bounds {K : Type} [LinearOrderedField K] (m : Cmath K)
    (solver : Problem K → solve_result K) (N : Nat)
    (state coeffs : Nat → K) (steer_value throttle_value : K) (p : Problem K)
    (hN : 2 ≤ N) (hfit : 8 * N < SIZE_MOD)
    (hp : p ∈ (Solve m solver N state coeffs steer_value throttle_value).calls) :
    p.xl.length = 6 * N + 2 * (N - 1) ∧ p.xu.length = 6 * N + 2 * (N - 1) ∧
    (∀ i, i < delta_start N →
      p.xl[i]? = some (some (-1.0e19)) ∧ p.xu[i]? = some (some 1.0e19)) ∧
    (∀ i, delta_start N ≤ i → i < a_start N →
      p.xl[i]? = some (some (-0.436332 * Lf)) ∧ p.xu[i]? = some (some (0.436332 * Lf))) ∧
    (∀ i, a_start N ≤ i → i < n_vars N →
      p.xl[i]? = some (some (-1)) ∧ p.xu[i]? = some (some 1)) ∧
    (∀ i, i < 6 * N + 2 * (N - 1) →
      ∃ lo hi, p.xl[i]? = some (some lo) ∧ p.xu[i]? = some (some hi) ∧ lo < hi) := by
  obtain ⟨-, -, -, -, -, e6, e7, e8, -⟩ := offsets_of_fit N (by omega) hfit
  have hpe : p = buildProblem m N state coeffs steer_value throttle_value := by
    simpa [Solve] using hp
  subst hpe
  obtain ⟨ll, lg⟩ := varsLowerbound_spec (α := K) N (by omega) hfit
  obtain ⟨ul, ug⟩ := varsUpperbound_spec (α := K) N (by omega) hfit
  have c1 : (-1.0e19 : K) < 1.0e19 := by norm_num
  have c2 : (-0.436332 * Lf : K) < 0.436332 * Lf := by norm_num [Lf]
  have c3 : (-1.0 : K) < 1.0 := by norm_num
  have d1 : (1.0 : K) = 1 := by norm_num
  simp only [buildProblem, e6, e7, e8]
  refine ⟨by rw [ll]; omega, by rw [ul]; omega, ?_, ?_, ?_, ?_⟩
  · intro i hi
    simp only [lg, ug, hi, if_true, and_self]
  · intro i h1 h2
    have n1 : ¬ i < 6 * N := by omega
    simp only [lg, ug, n1, h2, if_true, if_false, and_self]
  · intro i h1 h2
    have n1 : ¬ i < 6 * N := by omega
    have n2 : ¬ i < 7 * N - 1 := by omega
    simp only [lg, ug, n1, n2, h2, if_true, if_false, d1, and_self]
  · intro i hi
    by_cases h1 : i < 6 * N
    · exact ⟨_, _, by simp only [lg, h1, if_true], by simp only [ug, h1, if_true], c1⟩
    · by_cases h2 : i < 7 * N - 1
      · exact ⟨_, _, by simp only [lg, h1, h2, if_true, if_false],
          by simp only [ug, h1, h2, if_true, if_false], c2⟩
      · have h3 : i < 8 * N - 2 := by omega
        exact ⟨_, _, by simp only [lg, h1, h2, h3, if_true, if_false],
          by simp only [ug, h1, h2, h3, if_true, if_false], c3⟩

/-- C7: for the solution `sol` the solver returns, the vector `Solve` returns is
`[sol[delta_start], sol[a_start], x_1, y_1, ..., x_{N-1}, y_{N-1}]` with
`x_t = sol[x_start + t]` and `y_t = sol[y_start + t]`: it has exactly `2N` entries, the first
two are the first-step steering and acceleration, and positions `2t`, `2t + 1` hold the
position of step `t` for `1 ≤ t ≤ N - 1`. -/
theorem C7_result_layout {α : Type} [Add α] [Sub α] [Mul α] [Div α] [Neg α] [NatCast α]
    [OfScientific α] [Pow α Nat] (m : Cmath α) (solver : Problem α → solve_result α) (N : Nat)
    (state coeffs : Nat → α) (steer_value throttle_value : α) (sol : solve_result α)
    (hN : 2 ≤ N) (hfit : 8 * N < SIZE_MOD)
    (hsol : sol = solver (buildProblem m N state coeffs steer_value throttle_value)) :
    (Solve m solver N state coeffs steer_value throttle_value).result.length = 2 * N ∧
    (Solve m solver N state coeffs steer_value throttle_value).result[0]?
      = some (sol.x (delta_start N)) ∧
    (Solve m solver N state coeffs steer_value throttle_value).result[1]?
      = some (sol.x (a_start N)) ∧
    (∀ t, 1 ≤ t → t ≤ N - 1 →
      (Solve m solver N state coeffs steer_value throttle_value).result[2 * t]?
        = some (sol.x (x_start + t)) ∧
      (Solve m solver N state coeffs steer_value throttle_value).result[2 * t + 1]?
        = some (sol.x (y_start N + t))) ∧
    (Solve m solver N state coeffs steer_value throttle_value).result
      = sol.x (delta_start N) :: sol.x (a_start N) ::
        (List.range (N - 1)).flatMap
          (fun i => [sol.x (x_start + (i + 1)), sol.x (y_start N + (i + 1))]) := by
  obtain ⟨e1, -, -, -, -, e6, e7, -, -⟩ := offsets_of_fit N (by omega) hfit
  obtain ⟨xl, x0, x1, xv⟩ := extract_spec N sol.x (by omega) hfit
  subst hsol
  simp only [Solve, e1, e6, e7, x_start, Nat.zero_add]
  exact ⟨xl, x0, x1, xv, extract_eq N _ (by omega) hfit⟩

/-- C9, the code at a failed solve: with solver status `maxiter_exceeded` the flag `ok` is
false, yet `Solve` returns exactly the vector it returns when the solver reports success with
the same iterate, and its first two entries are the actuation read from that iterate. -/
theorem C9_failed_solve_returns_command :
    (Solve polyCmath stuckSolver 10 demoState demoCoeffs 0 0).ok = false ∧
    (Solve polyCmath luckySolver 10 demoState demoCoeffs 0 0).ok = true ∧
    (Solve polyCmath stuckSolver 10 demoState demoCoeffs 0 0).result
      = (Solve polyCmath luckySolver 10 demoState demoCoeffs 0 0).result ∧
    (Solve polyCmath stuckSolver 10 demoState demoCoeffs 0 0).result[0]? = some 5 ∧
    (Solve polyCmath stuckSolver 10 demoState demoCoeffs 0 0).result[1]? = some 5 := by
  obtain ⟨-, x0, x1, -⟩ := extract_spec 10
    (stuckSolver (buildProblem polyCmath 10 demoState demoCoeffs 0 0)).x (by decide)
    (by decide)
  simp only [Solve]
  exact ⟨rfl, rfl, rfl, x0, x1⟩

/-- C10, as amended: `Solve` has no check of its input.  For every raw state, over any scalar
type (finite values or not), it builds the problem, calls the solver exactly once on it and
returns what it extracts from the solver's answer; the constraint bounds at the six start
offsets are the compensated values computed from the raw state, the one at `x_start` being
`x0 + v0 * cos(psi0) * 0.1`. -/
theorem C10_solver_called_on_any_state {α : Type} [Add α] [Sub α] [Mul α] [Div α] [Neg α]
    [NatCast α] [OfScientific α] [Pow α Nat] (m : Cmath α)
    (solver : Problem α → solve_result α) (N : Nat) (state coeffs : Nat → α)
    (steer_value throttle_value : α) (hN : 2 ≤ N) (hfit : 8 * N < SIZE_MOD) :
    (Solve m solver N state coeffs steer_value throttle_value).calls
      = [buildProblem m N state coeffs steer_value throttle_value] ∧
    (Solve m solver N state coeffs steer_value throttle_value).result
      = extract N (solver (buildProblem m N state coeffs steer_value throttle_value)).x ∧
    (buildProblem m N state coeffs steer_value throttle_value).gu
      = (buildProblem m N state coeffs steer_value throttle_value).gl ∧
    (buildProblem m N state coeffs steer_value throttle_value).gl[x_start]?
      = some (some (state 0 + state 3 * m.cos (state 2) * 0.1)) ∧
    (buildProblem m N state coeffs steer_value throttle_value).gl[y_start N]?
      = some (some (compensate m state coeffs steer_value throttle_value).y) ∧
    (buildProblem m N state coeffs steer_value throttle_value).gl[psi_start N]?
      = some (some (compensate m state coeffs steer_value throttle_value).psi) ∧
    (buildProblem m N state coeffs steer_value throttle_value).gl[v_start N]?
      = some (some (compensate m state coeffs steer_value throttle_value).v) ∧
    (buildProblem m N state coeffs steer_value throttle_value).gl[cte_start N]?
      = some (some (compensate m state coeffs steer_value throttle_value).cte) ∧
    (buildProblem m N state coeffs steer_value throttle_value).gl[epsi_start N]?
      = some (some (compensate m state coeffs steer_value throttle_value).epsi) := by
  obtain ⟨e1, e2, e3, e4, e5, -, -, -, -⟩ := offsets_of_fit N (by omega) hfit
  obtain ⟨-, b0, b1, b2, b3, b4, b5, -⟩ :=
    constraintsBound_spec N (compensate m state coeffs steer_value throttle_value)
      (by omega) hfit
  simp only [Solve, buildProblem, e1, e2, e3, e4, e5, x_start]
  exact ⟨trivial, trivial, trivial, b0, b1, b2, b3, b4, b5⟩

/-- C10 as stated fails: with a raw state whose first component is NaN, `Solve` still calls
the solver once, and both constraint-bound vectors it passes hold NaN at index `x_start`. -/
theorem C10_nan_state_reaches_solver :
    Dbl.isFinite (nanState 0) = false ∧
    (Solve dblCmath dblSolver 10 nanState (fun _ => Dbl.fin 0) (Dbl.fin 0)
      (Dbl.fin 0)).calls.length = 1 ∧
    (Solve dblCmath dblSolver 10 nanState (fun _ => Dbl.fin 0) (Dbl.fin 0)
      (Dbl.fin 0)).calls.map (fun p => p.gl[x_start]?) = [some (some Dbl.nan)] ∧
    (Solve dblCmath dblSolver 10 nanState (fun _ => Dbl.fin 0) (Dbl.fin 0)
      (Dbl.fin 0)).calls.map (fun p => p.gu[x_start]?) = [some (some Dbl.nan)] := by
  obtain ⟨-, b0, -⟩ :=
    constraintsBound_spec 10
      (compensate dblCmath nanState (fun _ => Dbl.fin 0) (Dbl.fin 0) (Dbl.fin 0))
      (by decide) (by decide)
  have hx : (compensate dblCmath nanState (fun _ => Dbl.fin 0) (Dbl.fin 0) (Dbl.fin 0)).x
      = Dbl.nan := rfl
  rw [hx] at b0
  simp only [Solve, buildProblem, List.length_singleton, List.map_cons, List.map_nil, x_start,
    b0]
  exact ⟨rfl, trivial, trivial, trivial⟩

/-- C11, as amended: the horizon `N = 1`, below 2, is not rejected.  For every state,
coefficients and previous actuation `Solve` sizes the problem at 6 variables and 6
constraints, builds it and calls the solver once, and the formulator evaluates the tracking
cost.  With unsigned `N`, `N - 2` has wrapped to `2 ^ 64 - 1`, so the smoothness loop runs and
its first iteration reads `vars[7]`, past the 6 variables.  At `N = 0` the unsigned `N - 1`
and `N - 2` wrap to `2 ^ 64 - 1` and `2 ^ 64 - 2`, which makes `a_start` `2 ^ 64 - 1` and
`n_vars` `2 ^ 64 - 2`.  The step `dt` is the constant 0.1, which is positive. -/
theorem C11_no_configuration_check {K : Type} [LinearOrderedField K] (m : Cmath K)
    (solver : Problem K → solve_result K) (state coeffs vars : Nat → K)
    (steer_value throttle_value a0 : K) (rest : List K) :
    (Solve m solver 1 state coeffs steer_value throttle_value).calls
      = [buildProblem m 1 state coeffs steer_value throttle_value] ∧
    n_vars 1 = 6 ∧ n_constraints 1 = 6 ∧
    (costTracking 1 (a0 :: rest) vars)[0]?
      = some (2000 * (vars 4) ^ 2 + 2000 * (vars 5) ^ 2 + (vars 3 - 100) ^ 2) ∧
    ssub 1 2 = 18446744073709551615 ∧ 0 < ssub 1 2 ∧
    sadd (sadd (delta_start 1) 0) 1 = 7 ∧ sadd (sadd (a_start 1) 0) 1 = 7 ∧
    ssub 0 1 = 18446744073709551615 ∧ ssub 0 2 = 18446744073709551614 ∧
    a_start 0 = 18446744073709551615 ∧ n_vars 0 = 18446744073709551614 ∧
    (dt : K) = 0.1 ∧ (0 : K) < dt := by
  refine ⟨?_, by decide, by decide, ?_, by decide, by decide, by decide, by decide, by decide,
    by decide, by decide, by decide, rfl, ?_⟩
  · simp only [Solve]
  · have e3 : v_start 1 = 3 := by decide
    have e4 : cte_start 1 = 4 := by decide
    have e5 : epsi_start 1 = 5 := by decide
    have a3 : sadd 3 0 = 3 := by decide
    have a4 : sadd 4 0 = 4 := by decide
    have a5 : sadd 5 0 = 5 := by decide
    have hl : 0 < (a0 :: rest).length := Nat.succ_pos _
    unfold costTracking
    rw [forLoop_succ 0 0 _ _ (Nat.le_refl 0), forLoop_self]
    simp only [e3, e4, e5, a3, a4, a5, ref_cte, ref_epsi, ref_v, Nat.cast_ofNat, Nat.cast_zero]
    rw [addAt_set _ _ _ hl, addAt_set _ _ _ hl, addAt_set _ _ _ hl,
      List.getElem?_set_self hl]
    refine congrArg some ?_
    ring
  · simp only [dt]; norm_num

/-- C11 as stated fails: the horizon `N = 1` is not rejected.  `Solve` calls the solver once,
the formulator evaluates the tracking cost (91409 on the variables `vars[i] = i`), and the
bound `N - 2` of the smoothness loop has wrapped to `2 ^ 64 - 1`. -/
theorem C11_horizon_one_not_rejected :
    (Solve polyCmath zeroSolver 1 demoState demoCoeffs 0 0).calls.length = 1 ∧
    (costTracking 1 [0, 0, 0, 0, 0, 0, 0] demoVars)[0]? = some 91409 ∧
    0 < ssub 1 2 ∧ ssub 1 2 = 18446744073709551615 := by
  refine ⟨?_, ?_, by decide, by decide⟩
  · simp only [Solve, List.length_singleton]
  · have e3 : v_start 1 = 3 := by decide
    have e4 : cte_start 1 = 4 := by decide
    have e5 : epsi_start 1 = 5 := by decide
    have a3 : sadd 3 0 = 3 := by decide
    have a4 : sadd 4 0 = 4 := by decide
    have a5 : sadd 5 0 = 5 := by decide
    simp only [costTracking, forLoop, e3, e4, e5, Nat.sub_zero, List.range', List.foldl, a3, a4,
      a5, addAt, demoVars, ref_cte, ref_epsi, ref_v, List.set, List.getElem?_cons_zero]
    norm_num

/-- C12: with previous actuation `(0, 0)` the compensated heading and speed are the raw
`psi0` and `v0`, and the compensated position is
`(x0 + 0.1 v0 cos(psi0), y0 + 0.1 v0 sin(psi0))`, for every raw state and coefficients.  The
raw state `(0, 0, 0, 10, 0, 0)` with coefficients `(0, 0, 0, 0)` gives the compensated state
`(1, 0, 0, 10, 0, 0)`, with the real `sin`, `cos`, `arctan` and with their stand-in. -/
theorem C12_zero_actuation_straight_line {F : Type} [Field F] (m : Cmath F)
    (state coeffs : Nat → F) :
    (compensate m state coeffs 0 0).psi = state 2 ∧
    (compensate m state coeffs 0 0).v = state 3 ∧
    (compensate m state coeffs 0 0).x = state 0 + 0.1 * state 3 * m.cos (state 2) ∧
    (compensate m state coeffs 0 0).y = state 1 + 0.1 * state 3 * m.sin (state 2) ∧
    compensate (Cmath.mk Real.sin Real.cos Real.arctan)
        (fun i => if i = 3 then 10 else 0) (fun _ => 0) 0 0
      = { x := 1, y := 0, psi := 0, v := 10, cte := 0, epsi := 0 } ∧
    compensate polyCmath demoState demoCoeffs 0 0
      = { x := 1, y := 0, psi := 0, v := 10, cte := 0, epsi := 0 } := by
  refine ⟨?_, ?_, ?_, ?_, ?_, ?_⟩
  · simp only [compensate, mul_zero, zero_div, zero_mul, sub_zero]
  · simp only [compensate, zero_mul, add_zero]
  · simp only [compensate]; ring
  · simp only [compensate]; ring
  · simp only [compensate, State.mk.injEq]
    norm_num
  · simp only [compensate, State.mk.injEq, polyCmath, demoState, demoCoeffs]
    norm_num

/-- C13: the cost left in `fg[0]` is non-negative for every variable vector; it is 0 exactly
when every `cte_t` and `epsi_t` is 0, every `v_t` is 100 and every `delta_t` and `a_t` is 0;
so such a vector attains the minimum of the cost over all variable vectors. -/
theorem C13_cost_minimum {K : Type} [LinearOrderedField K] (m : Cmath K) (N : Nat)
    (coeffs vars : Nat → K) (fg : List K) (hN : 2 ≤ N) (hfit : 8 * N < SIZE_MOD)
    (hfg : fg.length = 1 + n_constraints N) :
    ∃ c : K, (FG_eval.eval (FG_eval.mk coeffs) m N fg vars)[0]? = some c ∧ 0 ≤ c ∧
      (c = 0 ↔
        (∀ t, t < N → vars (cte_start N + t) = 0 ∧ vars (epsi_start N + t) = 0 ∧
          vars (v_start N + t) = 100) ∧
        (∀ t, t < N - 1 → vars (delta_start N + t) = 0 ∧ vars (a_start N + t) = 0)) ∧
      (c = 0 → ∀ (vars2 : Nat → K) (c2 : K),
        (FG_eval.eval (FG_eval.mk coeffs) m N fg vars2)[0]? = some c2 → c ≤ c2) := by
  obtain ⟨-, -, e3, e4, e5, e6, e7, -, e9⟩ := offsets_of_fit N (by omega) hfit
  rw [e9] at hfg
  refine ⟨costPlain N vars, (FG_eval_spec m N coeffs vars fg hN hfit hfg).2.1,
    costPlain_nonneg N vars, ?_, ?_⟩
  · rw [e3, e4, e5, e6, e7]
    exact costPlain_eq_zero_iff N vars
  · intro h0 vars2 c2 h2
    rw [(FG_eval_spec m N coeffs vars2 fg hN hfit hfg).2.1] at h2
    rw [h0, ← Option.some.inj h2]
    exact costPlain_nonneg N vars2

/-- C14: iterating the model `k` times with constant steering `delta`, zero acceleration and
step `dt > 0` (real `sin` and `cos`) keeps the speed, gives the heading
`psi_k = psi_0 - k v delta dt / Lf`, and moves the position by a chord of length `|v| dt` at
every step; when `sin (v delta dt / (2 Lf))` is not 0, all positions lie on one circle, of
radius `|v| dt / (2 |sin (v delta dt / (2 Lf))|)`, which does not depend on the start position
or heading.  At step 0.1 the model step is the compensator of `Solve`. -/
theorem C14_constant_steering_circle (coeffs : Nat → ℝ) (s0 : State ℝ) (delta dt : ℝ)
    (hdt : 0 < dt) :
    (∀ k : Nat, (rollout (Cmath.mk Real.sin Real.cos Real.arctan) coeffs (fun _ => delta)
        (fun _ => 0) dt s0 k).v = s0.v) ∧
    (∀ k : Nat, (rollout (Cmath.mk Real.sin Real.cos Real.arctan) coeffs (fun _ => delta)
        (fun _ => 0) dt s0 k).psi = s0.psi - k * s0.v * delta * dt / Lf) ∧
    (∀ k : Nat,
      Real.sqrt (((rollout (Cmath.mk Real.sin Real.cos Real.arctan) coeffs (fun _ => delta)
          (fun _ => 0) dt s0 (k + 1)).x
        - (rollout (Cmath.mk Real.sin Real.cos Real.arctan) coeffs (fun _ => delta)
          (fun _ => 0) dt s0 k).x) ^ 2
      + ((rollout (Cmath.mk Real.sin Real.cos Real.arctan) coeffs (fun _ => delta)
          (fun _ => 0) dt s0 (k + 1)).y
        - (rollout (Cmath.mk Real.sin Real.cos Real.arctan) coeffs (fun _ => delta)
          (fun _ => 0) dt s0 k).y) ^ 2)
      = |s0.v| * dt) ∧
    (Real.sin (s0.v * delta * dt / (2 * Lf)) ≠ 0 →
      ∃ cx cy : ℝ, ∀ k : Nat,
        Real.sqrt (((rollout (Cmath.mk Real.sin Real.cos Real.arctan) coeffs (fun _ => delta)
            (fun _ => 0) dt s0 k).x - cx) ^ 2
        + ((rollout (Cmath.mk Real.sin Real.cos Real.arctan) coeffs (fun _ => delta)
            (fun _ => 0) dt s0 k).y - cy) ^ 2)
        = |s0.v| * dt / (2 * |Real.sin (s0.v * delta * dt / (2 * Lf))|)) ∧
    (∀ s : State ℝ,
      advance (Cmath.mk Real.sin Real.cos Real.arctan) coeffs s delta 0 0.1
        = compensate (Cmath.mk Real.sin Real.cos Real.arctan) s.vec coeffs delta 0) := by
  refine ⟨rollout_const_v _ coeffs delta dt s0, rollout_const_psi _ coeffs delta dt s0, ?_, ?_,
    fun s => advance_eq_compensate _ coeffs s delta 0⟩
  · intro k
    obtain ⟨hx, hy, -⟩ := rollout_const_xy coeffs delta dt s0 k
    have hc := Real.cos_sq_add_sin_sq (rollout (Cmath.mk Real.sin Real.cos Real.arctan) coeffs
      (fun _ => delta) (fun _ => 0) dt s0 k).psi
    have hsq : ((rollout (Cmath.mk Real.sin Real.cos Real.arctan) coeffs (fun _ => delta)
          (fun _ => 0) dt s0 (k + 1)).x
        - (rollout (Cmath.mk Real.sin Real.cos Real.arctan) coeffs (fun _ => delta)
          (fun _ => 0) dt s0 k).x) ^ 2
      + ((rollout (Cmath.mk Real.sin Real.cos Real.arctan) coeffs (fun _ => delta)
          (fun _ => 0) dt s0 (k + 1)).y
        - (rollout (Cmath.mk Real.sin Real.cos Real.arctan) coeffs (fun _ => delta)
          (fun _ => 0) dt s0 k).y) ^ 2 = (|s0.v| * dt) ^ 2 := by
      rw [hx, hy, mul_pow, sq_abs]
      linear_combination (s0.v ^ 2 * dt ^ 2) * hc
    rw [hsq]
    exact Real.sqrt_sq (mul_nonneg (abs_nonneg _) hdt.le)
  · intro hs
    have hw : s0.v * delta * dt / (2 * Lf) = (s0.v * delta * dt / Lf) / 2 := by ring
    rw [hw] at hs ⊢
    generalize hω : s0.v * delta * dt / Lf = ω at hs ⊢
    obtain ⟨ρ, hρ⟩ : ∃ ρ : ℝ, ρ * (2 * Real.sin (ω / 2)) = s0.v * dt :=
      ⟨s0.v * dt / (2 * Real.sin (ω / 2)), div_mul_cancel₀ _ (mul_ne_zero two_ne_zero hs)⟩
    refine ⟨s0.x + ρ * Real.sin (s0.psi + ω / 2), s0.y - ρ * Real.cos (s0.psi + ω / 2), ?_⟩
    have inv : ∀ k : Nat,
        (rollout (Cmath.mk Real.sin Real.cos Real.arctan) coeffs (fun _ => delta)
            (fun _ => 0) dt s0 k).x
          = s0.x + ρ * Real.sin (s0.psi + ω / 2)
            - ρ * Real.sin ((rollout (Cmath.mk Real.sin Real.cos Real.arctan) coeffs
                (fun _ => delta) (fun _ => 0) dt s0 k).psi + ω / 2) ∧
        (rollout (Cmath.mk Real.sin Real.cos Real.arctan) coeffs (fun _ => delta)
            (fun _ => 0) dt s0 k).y
          = s0.y - ρ * Real.cos (s0.psi + ω / 2)
            + ρ * Real.cos ((rollout (Cmath.mk Real.sin Real.cos Real.arctan) coeffs
                (fun _ => delta) (fun _ => 0) dt s0 k).psi + ω / 2) := by
      intro k
      induction k with
      | zero => simp only [rollout]; constructor <;> ring
      | succ k ih =>
        obtain ⟨hx, hy, hp⟩ := rollout_const_xy coeffs delta dt s0 k
        rw [hω] at hp
        rw [hx, hy, hp, ih.1, ih.2]
        generalize (rollout (Cmath.mk Real.sin Real.cos Real.arctan) coeffs (fun _ => delta)
          (fun _ => 0) dt s0 k).psi = ψ
        have e1 : ψ - ω + ω / 2 = ψ - ω / 2 := by ring
        have k1 : Real.sin (ψ + ω / 2) - Real.sin (ψ - ω / 2)
            = 2 * Real.cos ψ * Real.sin (ω / 2) := by
          rw [Real.sin_add, Real.sin_sub]; ring
        have k2 : Real.cos (ψ - ω / 2) - Real.cos (ψ + ω / 2)
            = 2 * Real.sin ψ * Real.sin (ω / 2) := by
          rw [Real.cos_add, Real.cos_sub]; ring
        rw [e1]
        constructor
        · linear_combination (-ρ) * k1 + (-Real.cos ψ) * hρ
        · linear_combination (-ρ) * k2 + (-Real.sin ψ) * hρ
    intro k
    rw [(inv k).1, (inv k).2]
    have hcs := Real.cos_sq_add_sin_sq ((rollout (Cmath.mk Real.sin Real.cos Real.arctan) coeffs
      (fun _ => delta) (fun _ => 0) dt s0 k).psi + ω / 2)
    have hr : (|s0.v| * dt / (2 * |Real.sin (ω / 2)|)) ^ 2 = ρ ^ 2 := by
      rw [div_pow, mul_pow, mul_pow, sq_abs, sq_abs,
        div_eq_iff (mul_ne_zero (pow_ne_zero 2 two_ne_zero) (pow_ne_zero 2 hs))]
      linear_combination (-(ρ * (2 * Real.sin (ω / 2)) + s0.v * dt)) * hρ
    have hsq : (s0.x + ρ * Real.sin (s0.psi + ω / 2)
          - ρ * Real.sin ((rollout (Cmath.mk Real.sin Real.cos Real.arctan) coeffs
            (fun _ => delta) (fun _ => 0) dt s0 k).psi + ω / 2)
          - (s0.x + ρ * Real.sin (s0.psi + ω / 2))) ^ 2
        + (s0.y - ρ * Real.cos (s0.psi + ω / 2)
          + ρ * Real.cos ((rollout (Cmath.mk Real.sin Real.cos Real.arctan) coeffs
            (fun _ => delta) (fun _ => 0) dt s0 k).psi + ω / 2)
          - (s0.y - ρ * Real.cos (s0.psi + ω / 2))) ^ 2
        = (|s0.v| * dt / (2 * |Real.sin (ω / 2)|)) ^ 2 := by
      rw [hr]
      linear_combination (ρ ^ 2) * hcs
    rw [hsq]
    exact Real.sqrt_sq (div_nonneg (mul_nonneg (abs_nonneg _) hdt.le)
      (mul_nonneg zero_le_two (abs_nonneg _)))

/-- C15: the compensator of `Solve` and the prediction in the residuals of `FG_eval` are the
same model, with `dt = 0.1` equal to the delay.  If the step-`t` variables hold the raw state
and the step-`t` actuation variables hold the previous steering and throttle, then each of the
six constraint entries of step `t + 1` is the step-`t + 1` variable minus that field of the
compensated state, and the six are all zero exactly when the step-`t + 1` state equals the
compensated state.  The claim is the case `t = 0`. -/
theorem C15_compensator_is_residual_model {F : Type} [Field F] (m : Cmath F) (N : Nat)
    (state coeffs vars : Nat → F) (steer_value throttle_value : F) (fg : List F) (t : Nat)
    (hN : 2 ≤ N) (hfit : 8 * N < SIZE_MOD) (hfg : fg.length = 1 + n_constraints N)
    (ht : t + 1 ≤ N - 1)
    (h0 : vars (x_start + t) = state 0) (h1 : vars (y_start N + t) = state 1)
    (h2 : vars (psi_start N + t) = state 2) (h3 : vars (v_start N + t) = state 3)
    (h5 : vars (epsi_start N + t) = state 5) (hd : vars (delta_start N + t) = steer_value)
    (ha : vars (a_start N + t) = throttle_value) :
    (dt : F) = 0.1 ∧
    (FG_eval.eval (FG_eval.mk coeffs) m N fg vars)[1 + x_start + (t + 1)]?
      = some (vars (x_start + (t + 1))
          - (compensate m state coeffs steer_value throttle_value).x) ∧
    (FG_eval.eval (FG_eval.mk coeffs) m N fg vars)[1 + y_start N + (t + 1)]?
      = some (vars (y_start N + (t + 1))
          - (compensate m state coeffs steer_value throttle_value).y) ∧
    (FG_eval.eval (FG_eval.mk coeffs) m N fg vars)[1 + psi_start N + (t + 1)]?
      = some (vars (psi_start N + (t + 1))
          - (compensate m state coeffs steer_value throttle_value).psi) ∧
    (FG_eval.eval (FG_eval.mk coeffs) m N fg vars)[1 + v_start N + (t + 1)]?
      = some (vars (v_start N + (t + 1))
          - (compensate m state coeffs steer_value throttle_value).v) ∧
    (FG_eval.eval (FG_eval.mk coeffs) m N fg vars)[1 + cte_start N + (t + 1)]?
      = some (vars (cte_start N + (t + 1))
          - (compensate m state coeffs steer_value throttle_value).cte) ∧
    (FG_eval.eval (FG_eval.mk coeffs) m N fg vars)[1 + epsi_start N + (t + 1)]?
      = some (vars (epsi_start N + (t + 1))
          - (compensate m state coeffs steer_value throttle_value).epsi) ∧
    (((FG_eval.eval (FG_eval.mk coeffs) m N fg vars)[1 + x_start + (t + 1)]? = some 0 ∧
      (FG_eval.eval (FG_eval.mk coeffs) m N fg vars)[1 + y_start N + (t + 1)]? = some 0 ∧
      (FG_eval.eval (FG_eval.mk coeffs) m N fg vars)[1 + psi_start N + (t + 1)]? = some 0 ∧
      (FG_eval.eval (FG_eval.mk coeffs) m N fg vars)[1 + v_start N + (t + 1)]? = some 0 ∧
      (FG_eval.eval (FG_eval.mk coeffs) m N fg vars)[1 + cte_start N + (t + 1)]? = some 0 ∧
      (FG_eval.eval (FG_eval.mk coeffs) m N fg vars)[1 + epsi_start N + (t + 1)]? = some 0) ↔
      stateAt N vars (t + 1) = compensate m state coeffs steer_value throttle_value) := by
  have hp := predictedAt_eq_compensate m N state coeffs vars steer_value throttle_value t
    h0 h1 h2 h3 h5 hd ha
  obtain ⟨v0, v1, v2, v3, v4, v5⟩ := residualValue_eq m N coeffs vars t (by omega) hfit
  obtain ⟨e1, e2, e3, e4, e5, -, -, -, e9⟩ := offsets_of_fit N (by omega) hfit
  rw [e9] at hfg
  obtain ⟨-, -, -, hres⟩ := FG_eval_spec m N coeffs vars fg hN hfit hfg
  obtain ⟨r0, r1, r2, r3, r4, r5⟩ := hres t (by omega)
  rw [v0, hp] at r0
  rw [v1, hp] at r1
  rw [v2, hp] at r2
  rw [v3, hp] at r3
  rw [v4, hp] at r4
  rw [v5, hp] at r5
  have i0 : 1 + x_start + (t + 1) = 2 + t := by simp only [x_start]; omega
  have i1 : 1 + y_start N + (t + 1) = 2 + N + t := by rw [e1]; omega
  have i2 : 1 + psi_start N + (t + 1) = 2 + 2 * N + t := by rw [e2]; omega
  have i3 : 1 + v_start N + (t + 1) = 2 + 3 * N + t := by rw [e3]; omega
  have i4 : 1 + cte_start N + (t + 1) = 2 + 4 * N + t := by rw [e4]; omega
  have i5 : 1 + epsi_start N + (t + 1) = 2 + 5 * N + t := by rw [e5]; omega
  rw [i0, i1, i2, i3, i4, i5, r0, r1, r2, r3, r4, r5]
  refine ⟨rfl, rfl, rfl, rfl, rfl, rfl, rfl, ?_⟩
  simp only [Option.some.injEq, sub_eq_zero]
  constructor
  · rintro ⟨g0, g1, g2, g3, g4, g5⟩
    cases hs : stateAt N vars (t + 1)
    cases hc : compensate m state coeffs steer_value throttle_value
    simp only [hs, hc] at g0 g1 g2 g3 g4 g5
    simp only [State.mk.injEq]
    exact ⟨g0, g1, g2, g3, g4, g5⟩
  · intro h
    rw [h]
    exact ⟨rfl, rfl, rfl, rfl, rfl, rfl⟩

/-- C16: the starting point `Solve` hands to the solver has `6N + 2(N-1)` entries, all
written and all equal to 0, whatever the state, coefficients and previous actuation. -/
theorem C16_zero_start {F : Type} [Field F] (m : Cmath F)
    (solver : Problem F → solve_result F) (N : Nat) (state coeffs : Nat → F)
    (steer_value throttle_value : F) (p : Problem F) (hN : 2 ≤ N) (hfit : 8 * N < SIZE_MOD)
    (hp : p ∈ (Solve m solver N state coeffs steer_value throttle_value).calls) :
    p.xi.length = 6 * N + 2 * (N - 1) ∧
    (∀ i, i < 6 * N + 2 * (N - 1) → p.xi[i]? = some (some 0)) ∧
    p.xi = List.replicate (6 * N + 2 * (N - 1)) (some 0) := by
  have hpe : p = buildProblem m N state coeffs steer_value throttle_value :=
    List.mem_singleton.mp hp
  subst hpe
  have hx : (buildProblem m N state coeffs steer_value throttle_value).xi
      = List.replicate (6 * N + 2 * (N - 1)) (some 0) := by
    have e : 8 * N - 2 = 6 * N + 2 * (N - 1) := by omega
    simp only [buildProblem]
    rw [initialVars_spec N (by omega) hfit, Nat.cast_zero, e]
  rw [hx]
  refine ⟨List.length_replicate _ _, fun i hi => ?_, rfl⟩
  rw [List.getElem?_replicate, if_pos hi]

/-- C17: the constraints determine the states from the actuations.  A variable vector meets
all `6N` constraint bounds exactly when its state of every step `t < N` is the forward rollout
of the model from the compensated state under its own actuation variables.  For every
actuation sequence the vector assembled from the rollout and that sequence is feasible, so
the constraint set is not empty; two feasible vectors with the same actuation variables have
the same `6N` state variables. -/
theorem C17_constraints_determine_trajectory {K : Type} [LinearOrderedField K] (m : Cmath K)
    (solver : Problem K → solve_result K) (N : Nat) (state coeffs : Nat → K)
    (steer_value throttle_value : K) (fg : List K) (p : Problem K) (hN : 2 ≤ N)
    (hfit : 8 * N < SIZE_MOD) (hfg : fg.length = 1 + n_constraints N)
    (hp : p ∈ (Solve m solver N state coeffs steer_value throttle_value).calls) :
    (∀ vars : Nat → K,
      constraintsHold p.gl p.gu (FG_eval.eval p.fg_eval m N fg vars) = true ↔
        ∀ t, t < N → stateAt N vars t
          = rollout m coeffs (fun t => vars (delta_start N + t))
              (fun t => vars (a_start N + t)) dt
              (compensate m state coeffs steer_value throttle_value) t) ∧
    (∀ delta a : Nat → K,
      constraintsHold p.gl p.gu (FG_eval.eval p.fg_eval m N fg
        (assemble N (rollout m coeffs delta a dt
          (compensate m state coeffs steer_value throttle_value)) delta a)) = true ∧
      ∀ t, t < N - 1 →
        assemble N (rollout m coeffs delta a dt
          (compensate m state coeffs steer_value throttle_value)) delta a (delta_start N + t)
          = delta t ∧
        assemble N (rollout m coeffs delta a dt
          (compensate m state coeffs steer_value throttle_value)) delta a (a_start N + t)
          = a t) ∧
    (∀ vars vars2 : Nat → K,
      constraintsHold p.gl p.gu (FG_eval.eval p.fg_eval m N fg vars) = true →
      constraintsHold p.gl p.gu (FG_eval.eval p.fg_eval m N fg vars2) = true →
      (∀ t, t < N - 1 → vars (delta_start N + t) = vars2 (delta_start N + t) ∧
        vars (a_start N + t) = vars2 (a_start N + t)) →
      ∀ i, i < 6 * N → vars i = vars2 i) := by
  obtain ⟨-, -, -, -, -, -, -, -, e9⟩ := offsets_of_fit N (by omega) hfit
  rw [e9] at hfg
  have hpe : p = buildProblem m N state coeffs steer_value throttle_value :=
    List.mem_singleton.mp hp
  subst hpe
  simp only [buildProblem]
  have main : ∀ vars : Nat → K,
      constraintsHold (constraintsBound N (compensate m state coeffs steer_value throttle_value))
        (constraintsBound N (compensate m state coeffs steer_value throttle_value))
        (FG_eval.eval (FG_eval.mk coeffs) m N fg vars) = true ↔
      ∀ t, t < N → stateAt N vars t
        = rollout m coeffs (fun t => vars (delta_start N + t))
            (fun t => vars (a_start N + t)) dt
            (compensate m state coeffs steer_value throttle_value) t := by
    intro vars
    rw [feasible_iff_stepwise m N coeffs vars fg _ hN hfit hfg]
    exact stepwise_iff_rollout m N coeffs vars _ (by omega)
  refine ⟨main, ?_, ?_⟩
  · intro delta a
    obtain ⟨as, aa⟩ := assemble_spec N (rollout m coeffs delta a dt
      (compensate m state coeffs steer_value throttle_value)) delta a (by omega) hfit
    refine ⟨(main _).mpr (fun t ht => ?_), aa⟩
    rw [as t ht]
    exact rollout_congr m coeffs _ _ _ _ dt _ t
      (fun k hk => ⟨((aa k (by omega)).1).symm, ((aa k (by omega)).2).symm⟩)
  · intro vars vars2 h1 h2 hact i hi
    have r1 := (main vars).mp h1
    have r2 := (main vars2).mp h2
    have hst : ∀ t, t < N → stateAt N vars t = stateAt N vars2 t := by
      intro t ht
      rw [r1 t ht, r2 t ht]
      exact rollout_congr m coeffs _ _ _ _ dt _ t (fun k hk => hact k (by omega))
    obtain ⟨e1, e2, e3, e4, e5, -, -, -, -⟩ := offsets_of_fit N (by omega) hfit
    have hx : ∀ t, t < N → vars t = vars2 t := by
      intro t ht
      have := congrArg State.x (hst t ht)
      simpa only [stateAt, x_start, Nat.zero_add] using this
    have hy : ∀ t, t < N → vars (N + t) = vars2 (N + t) := by
      intro t ht
      have := congrArg State.y (hst t ht)
      simpa only [stateAt, e1] using this
    have hpsi : ∀ t, t < N → vars (2 * N + t) = vars2 (2 * N + t) := by
      intro t ht
      have := congrArg State.psi (hst t ht)
      simpa only [stateAt, e2] using this
    have hv : ∀ t, t < N → vars (3 * N + t) = vars2 (3 * N + t) := by
      intro t ht
      have := congrArg State.v (hst t ht)
      simpa only [stateAt, e3] using this
    have hcte : ∀ t, t < N → vars (4 * N + t) = vars2 (4 * N + t) := by
      intro t ht
      have := congrArg State.cte (hst t ht)
      simpa only [stateAt, e4] using this
    have hepsi : ∀ t, t < N → vars (5 * N + t) = vars2 (5 * N + t) := by
      intro t ht
      have := congrArg State.epsi (hst t ht)
      simpa only [stateAt, e5] using this
    by_cases c1 : i < N
    · exact hx i c1
    by_cases c2 : i < 2 * N
    · have := hy (i - N) (by omega)
      rwa [show N + (i - N) = i by omega] at this
    by_cases c3 : i < 3 * N
    · have := hpsi (i - 2 * N) (by omega)
      rwa [show 2 * N + (i - 2 * N) = i by omega] at this
    by_cases c4 : i < 4 * N
    · have := hv (i - 3 * N) (by omega)
      rwa [show 3 * N + (i - 3 * N) = i by omega] at this
    by_cases c5 : i < 5 * N
    · have := hcte (i - 4 * N) (by omega)
      rwa [show 4 * N + (i - 4 * N) = i by omega] at this
    · have := hepsi (i - 5 * N) (by omega)
      rwa [show 5 * N + (i - 5 * N) = i by omega] at this

/-- C18: the raw cross-track error `state[4]` has no influence: two inputs that differ only
in `state[4]` give the same compensated state, the same problem (bounds, starting point,
`FG_eval` object) and the same run of `Solve`.  The compensated `cte` and `epsi` are recomputed
by the stated formulas; two inputs that differ only in `state[5]` give the same compensated
`x`, `y`, `psi`, `v`, `epsi`, the same variable bounds and `FG_eval` object, and the same
constraint bounds at every index other than `cte_start`. -/
theorem C18_raw_errors_recomputed {α : Type} [Add α] [Sub α] [Mul α] [Div α] [Neg α]
    [NatCast α] [OfScientific α] [Pow α Nat] (m : Cmath α)
    (solver : Problem α → solve_result α) (N : Nat) (state state4 state5 coeffs : Nat → α)
    (steer_value throttle_value : α)
    (h4 : ∀ i, i ≠ 4 → state4 i = state i) (h5 : ∀ i, i ≠ 5 → state5 i = state i) :
    compensate m state4 coeffs steer_value throttle_value
      = compensate m state coeffs steer_value throttle_value ∧
    buildProblem m N state4 coeffs steer_value throttle_value
      = buildProblem m N state coeffs steer_value throttle_value ∧
    Solve m solver N state4 coeffs steer_value throttle_value
      = Solve m solver N state coeffs steer_value throttle_value ∧
    (compensate m state coeffs steer_value throttle_value).cte
      = (coeffs 0 + coeffs 1 * state 0 + coeffs 2 * state 0 * state 0
          + coeffs 3 * state 0 * state 0 * state 0 - state 1)
        + (state 3 * m.sin (state 5) * 0.1) ∧
    (compensate m state coeffs steer_value throttle_value).epsi
      = (state 2 - m.atan (((3 : Nat) : α) * coeffs 3 * state 0 * state 0
          + ((2 : Nat) : α) * coeffs 2 * state 0 + coeffs 1))
        - state 3 * steer_value / Lf * 0.1 ∧
    (compensate m state5 coeffs steer_value throttle_value).x
      = (compensate m state coeffs steer_value throttle_value).x ∧
    (compensate m state5 coeffs steer_value throttle_value).y
      = (compensate m state coeffs steer_value throttle_value).y ∧
    (compensate m state5 coeffs steer_value throttle_value).psi
      = (compensate m state coeffs steer_value throttle_value).psi ∧
    (compensate m state5 coeffs steer_value throttle_value).v
      = (compensate m state coeffs steer_value throttle_value).v ∧
    (compensate m state5 coeffs steer_value throttle_value).epsi
      = (compensate m state coeffs steer_value throttle_value).epsi ∧
    (buildProblem m N state5 coeffs steer_value throttle_value).xi
      = (buildProblem m N state coeffs steer_value throttle_value).xi ∧
    (buildProblem m N state5 coeffs steer_value throttle_value).xl
      = (buildProblem m N state coeffs steer_value throttle_value).xl ∧
    (buildProblem m N state5 coeffs steer_value throttle_value).xu
      = (buildProblem m N state coeffs steer_value throttle_value).xu ∧
    (buildProblem m N state5 coeffs steer_value throttle_value).fg_eval
      = (buildProblem m N state coeffs steer_value throttle_value).fg_eval ∧
    (∀ j, j ≠ cte_start N →
      (buildProblem m N state5 coeffs steer_value throttle_value).gl[j]?
        = (buildProblem m N state coeffs steer_value throttle_value).gl[j]? ∧
      (buildProblem m N state5 coeffs steer_value throttle_value).gu[j]?
        = (buildProblem m N state coeffs steer_value throttle_value).gu[j]?) := by
  have hc : compensate m state4 coeffs steer_value throttle_value
      = compensate m state coeffs steer_value throttle_value := by
    simp only [compensate, h4 0 (by decide), h4 1 (by decide), h4 2 (by decide),
      h4 3 (by decide), h4 5 (by decide)]
  have hb : buildProblem m N state4 coeffs steer_value throttle_value
      = buildProblem m N state coeffs steer_value throttle_value := by
    simp only [buildProblem, hc]
  have e0 := h5 0 (by decide)
  have e1 := h5 1 (by decide)
  have e2 := h5 2 (by decide)
  have e3 := h5 3 (by decide)
  have cx : (compensate m state5 coeffs steer_value throttle_value).x
      = (compensate m state coeffs steer_value throttle_value).x := by
    simp only [compensate, e0, e1, e2, e3]
  have cy : (compensate m state5 coeffs steer_value throttle_value).y
      = (compensate m state coeffs steer_value throttle_value).y := by
    simp only [compensate, e0, e1, e2, e3]
  have cpsi : (compensate m state5 coeffs steer_value throttle_value).psi
      = (compensate m state coeffs steer_value throttle_value).psi := by
    simp only [compensate, e0, e1, e2, e3]
  have cv : (compensate m state5 coeffs steer_value throttle_value).v
      = (compensate m state coeffs steer_value throttle_value).v := by
    simp only [compensate, e0, e1, e2, e3]
  have cepsi : (compensate m state5 coeffs steer_value throttle_value).epsi
      = (compensate m state coeffs steer_value throttle_value).epsi := by
    simp only [compensate, e0, e1, e2, e3]
  refine ⟨hc, hb, ?_, ?_, ?_, cx, cy, cpsi, cv, cepsi, ?_, ?_, ?_, ?_, ?_⟩
  · simp only [Solve, hb]
  · simp only [compensate]
  · simp only [compensate]
  · simp only [buildProblem]
  · simp only [buildProblem]
  · simp only [buildProblem]
  · simp only [buildProblem]
  · intro j hj
    simp only [buildProblem]
    exact ⟨constraintsBound_congr_except_cte N _ _ cx cy cpsi cv cepsi j hj,
      constraintsBound_congr_except_cte N _ _ cx cy cpsi cv cepsi j hj⟩

/-! ## The theorems at concrete inputs -/

/-- C2 at the horizon 2, step 1, on the variables `vars[i] = i`. -/
theorem C2_dynamics_residuals_witness :
    2 ≤ 2 ∧ 8 * 2 < SIZE_MOD ∧ (List.replicate 13 (0 : ℚ)).length = 1 + n_constraints 2 ∧
    (FG_eval.eval (FG_eval.mk demoCoeffs) polyCmath 2 (List.replicate 13 0)
        demoVars)[1 + x_start + 1]?
      = some ((stateAt 2 demoVars 1).x - (predictedAt polyCmath 2 demoCoeffs demoVars 1).x) :=
  ⟨by decide, by decide, by decide,
    (C2_dynamics_residuals polyCmath 2 demoCoeffs demoVars (List.replicate 13 0) 1 (by decide)
      (by decide) (by decide) (by decide) (by decide)).2.1⟩

/-- C3 at the horizon 2 and the raw state `(0, 0, 0, 10, 0, 0)`. -/
theorem C3_initial_state_pinned_witness :
    2 ≤ 2 ∧ 8 * 2 < SIZE_MOD ∧ (List.replicate 13 (0 : ℚ)).length = 1 + n_constraints 2 ∧
    (buildProblem polyCmath 2 demoState demoCoeffs 0 0).gl[x_start]?
      = some (some (compensate polyCmath demoState demoCoeffs 0 0).x) :=
  ⟨by decide, by decide, by decide,
    (C3_initial_state_pinned polyCmath zeroSolver 2 demoState demoCoeffs demoVars 0 0
      (List.replicate 13 0) (buildProblem polyCmath 2 demoState demoCoeffs 0 0) (by decide)
      (by decide) (by decide) (List.mem_singleton.mpr rfl)).2.1.2.2.1⟩

/-- C4 at the horizon 10. -/
theorem C4_layout_witness :
    2 ≤ 10 ∧ 8 * 10 < SIZE_MOD ∧ n_vars 10 = 6 * 10 + 2 * (10 - 1) ∧
    n_constraints 10 = delta_start 10 :=
  ⟨by decide, by decide, (C4_layout 10 (by decide) (by decide)).2.2.2.2.2.2.2.2.2.1,
    (C4_layout 10 (by decide) (by decide)).2.2.2.2.2.2.2.2.2.2.1⟩

/-- C5 at the horizon 2 on the variables `vars[i] = i`: the cost is 751050. -/
theorem C5_cost_witness :
    2 ≤ 2 ∧ 8 * 2 < SIZE_MOD ∧ (List.replicate 13 (0 : ℚ)).length = 1 + n_constraints 2 ∧
    (FG_eval.eval (FG_eval.mk demoCoeffs) polyCmath 2 (List.replicate 13 0) demoVars)[0]?
      = some 751050 :=
  ⟨by decide, by decide, by decide,
    (C5_cost polyCmath 2 demoCoeffs demoVars (List.replicate 13 0) (by decide) (by decide)
      (by decide)).trans (by
        rw [show cte_start 2 = 8 from by decide, show epsi_start 2 = 10 from by decide,
          show v_start 2 = 6 from by decide, show delta_start 2 = 12 from by decide,
          show a_start 2 = 13 from by decide]
        norm_num [Finset.sum_range_succ, demoVars])⟩

/-- C6 at the horizon 2. -/
theorem C6_variable_bounds_witness :
    2 ≤ 2 ∧ 8 * 2 < SIZE_MOD ∧
    (buildProblem polyCmath 2 demoState demoCoeffs 0 0).xl.length = 6 * 2 + 2 * (2 - 1) :=
  ⟨by decide, by decide,
    (C6_variable_bounds polyCmath zeroSolver 2 demoState demoCoeffs 0 0
      (buildProblem polyCmath 2 demoState demoCoeffs 0 0) (by decide) (by decide)
      (List.mem_singleton.mpr rfl)).1⟩

/-- C7 at the horizon 2 with the all-zero solution. -/
theorem C7_result_layout_witness :
    2 ≤ 2 ∧ 8 * 2 < SIZE_MOD ∧
    (Solve polyCmath zeroSolver 2 demoState demoCoeffs 0 0).result.length = 2 * 2 :=
  ⟨by decide, by decide,
    (C7_result_layout polyCmath zeroSolver 2 demoState demoCoeffs 0 0
      (zeroSolver (buildProblem polyCmath 2 demoState demoCoeffs 0 0)) (by decide) (by decide)
      rfl).1⟩

/-- C10, as amended, at the horizon 10 on a raw state whose first component is NaN. -/
theorem C10_solver_called_on_any_state_witness :
    2 ≤ 10 ∧ 8 * 10 < SIZE_MOD ∧
    (Solve dblCmath dblSolver 10 nanState (fun _ => Dbl.fin 0) (Dbl.fin 0) (Dbl.fin 0)).calls
      = [buildProblem dblCmath 10 nanState (fun _ => Dbl.fin 0) (Dbl.fin 0) (Dbl.fin 0)] :=
  ⟨by decide, by decide,
    (C10_solver_called_on_any_state dblCmath dblSolver 10 nanState (fun _ => Dbl.fin 0)
      (Dbl.fin 0) (Dbl.fin 0) (by decide) (by decide)).1⟩

/-- C13 at the horizon 2 on the variables `vars[i] = i`. -/
theorem C13_cost_minimum_witness :
    2 ≤ 2 ∧ 8 * 2 < SIZE_MOD ∧ (List.replicate 13 (0 : ℚ)).length = 1 + n_constraints 2 ∧
    ∃ c : ℚ,
      (FG_eval.eval (FG_eval.mk demoCoeffs) polyCmath 2 (List.replicate 13 0) demoVars)[0]?
        = some c ∧ 0 ≤ c :=
  ⟨by decide, by decide, by decide,
    (C13_cost_minimum polyCmath 2 demoCoeffs demoVars (List.replicate 13 0) (by decide)
      (by decide) (by decide)).elim (fun c h => ⟨c, h.1, h.2.1⟩)⟩

/-- C14 at speed 10, steering 0.2 and step 0.1. -/
theorem C14_constant_steering_circle_witness :
    (0 : ℝ) < 0.1 ∧
    ∀ k : Nat, (rollout (Cmath.mk Real.sin Real.cos Real.arctan) (fun _ => 0) (fun _ => 0.2)
        (fun _ => 0) 0.1 { x := 0, y := 0, psi := 0, v := 10, cte := 0, epsi := 0 } k).v = 10 :=
  ⟨by norm_num,
    (C14_constant_steering_circle (fun _ => 0)
      { x := 0, y := 0, psi := 0, v := 10, cte := 0, epsi := 0 } 0.2 0.1 (by norm_num)).1⟩

/-- C15 at the horizon 2 and step 0, the raw state being the step-0 variables. -/
theorem C15_compensator_is_residual_model_witness :
    2 ≤ 2 ∧ 8 * 2 < SIZE_MOD ∧ (List.replicate 13 (0 : ℚ)).length = 1 + n_constraints 2 ∧
    0 + 1 ≤ 2 - 1 ∧
    (FG_eval.eval (FG_eval.mk demoCoeffs) polyCmath 2 (List.replicate 13 0)
        demoVars)[1 + x_start + (0 + 1)]?
      = some (demoVars (x_start + (0 + 1))
          - (compensate polyCmath (stateVector 2 demoVars 0) demoCoeffs
              (demoVars (delta_start 2 + 0)) (demoVars (a_start 2 + 0))).x) :=
  ⟨by decide, by decide, by decide, by decide,
    (C15_compensator_is_residual_model polyCmath 2 (stateVector 2 demoVars 0) demoCoeffs
      demoVars (demoVars (delta_start 2 + 0)) (demoVars (a_start 2 + 0))
      (List.replicate 13 0) 0 (by decide) (by decide) (by decide) (by decide)
      rfl rfl rfl rfl rfl rfl rfl).2.1⟩

/-- C16 at the horizon 2. -/
theorem C16_zero_start_witness :
    2 ≤ 2 ∧ 8 * 2 < SIZE_MOD ∧
    (buildProblem polyCmath 2 demoState demoCoeffs 0 0).xi.length = 6 * 2 + 2 * (2 - 1) :=
  ⟨by decide, by decide,
    (C16_zero_start polyCmath zeroSolver 2 demoState demoCoeffs 0 0
      (buildProblem polyCmath 2 demoState demoCoeffs 0 0) (by decide) (by decide)
      (List.mem_singleton.mpr rfl)).1⟩

/-- C17 at the horizon 2: the rollout under zero actuation is feasible. -/
theorem C17_constraints_determine_trajectory_witness :
    2 ≤ 2 ∧ 8 * 2 < SIZE_MOD ∧ (List.replicate 13 (0 : ℚ)).length = 1 + n_constraints 2 ∧
    constraintsHold (buildProblem polyCmath 2 demoState demoCoeffs 0 0).gl
      (buildProblem polyCmath 2 demoState demoCoeffs 0 0).gu
      (FG_eval.eval (buildProblem polyCmath 2 demoState demoCoeffs 0 0).fg_eval polyCmath 2
        (List.replicate 13 0)
        (assemble 2 (rollout polyCmath demoCoeffs (fun _ => 0) (fun _ => 0) dt
          (compensate polyCmath demoState demoCoeffs 0 0)) (fun _ => 0) (fun _ => 0)))
      = true :=
  ⟨by decide, by decide, by decide,
    ((C17_constraints_determine_trajectory polyCmath zeroSolver 2 demoState demoCoeffs 0 0
      (List.replicate 13 0) (buildProblem polyCmath 2 demoState demoCoeffs 0 0) (by decide)
      (by decide) (by decide) (List.mem_singleton.mpr rfl)).2.1 (fun _ => 0) (fun _ => 0)).1⟩

/-- C18 at the horizon 10: changing `state[4]` to 7 leaves the problem unchanged. -/
theorem C18_raw_errors_recomputed_witness :
    (∀ i, i ≠ 4 → (fun j => if j = 4 then (7 : ℚ) else demoState j) i = demoState i) ∧
    (∀ i, i ≠ 5 → (fun j => if j = 5 then (7 : ℚ) else demoState j) i = demoState i) ∧
    buildProblem polyCmath 10 (fun j => if j = 4 then (7 : ℚ) else demoState j) demoCoeffs 0 0
      = buildProblem polyCmath 10 demoState demoCoeffs 0 0 :=
  ⟨fun _ hi => if_neg hi, fun _ hi => if_neg hi,
    (C18_raw_errors_recomputed polyCmath zeroSolver 10 demoState
      (fun j => if j = 4 then (7 : ℚ) else demoState j)
      (fun j => if j = 5 then (7 : ℚ) else demoState j) demoCoeffs 0 0
      (fun _ hi => if_neg hi) (fun _ hi => if_neg hi)).2.1⟩

end MPC
